import Mathlib

/-!
Verification of the data-to-paper execution-sandbox / artifact-validation pipeline.

This file gives a shallow embedding of:
* `CodeRunner.extract_code`  (src/scientistgpt/run_gpt_code/code_runner.py),
* the output-file requirement model
  (src/data_to_paper/data_to_paper/run_gpt_code/output_file_requirements.py),
* the checker framework and the df checkers
  (src/data_to_paper/data_to_paper/research_types/hypothesis_testing/check_df_to_funcs/df_checker.py),

and proves or refutes the frozen claims about them.

Python strings are modelled as `List Char`; Python machine floats appearing as
dataframe cell values are modelled exactly as decimal numbers (all the values the
claims touch are decimal literals, which CPython stores exactly enough for `==`,
`int()` truncation and `str` round-tripping to agree with the decimal reading).
-/

/-! ## Python string primitives (used by the embedded code) -/

namespace PyStr

/-- The characters Python's `str.strip()` removes (Python whitespace). -/
def pySpace (c : Char) : Bool :=
  c = ' ' || c = '\t' || c = '\n' || c = '\r' || c = Char.ofNat 11 || c = Char.ofNat 12

/-- Python `str.strip()`: drop leading and trailing whitespace. -/
def pyStrip (l : List Char) : List Char :=
  ((l.dropWhile pySpace).reverse.dropWhile pySpace).reverse

/-- Substring test: does `pat` occur contiguously in the list? -/
def subL (pat : List Char) : List Char → Bool
  | [] => pat.isEmpty
  | c :: rest => pat.isPrefixOf (c :: rest) || subL pat rest

/-- Python `str.count(pat)` for a non-empty pattern `p :: ps`: non-overlapping
occurrences, scanning left to right.  The `skip` counter carries how many
characters are still covered by the previously counted occurrence, making the
scan structurally recursive. -/
def countSubAux (p : Char) (ps : List Char) : Nat → List Char → Nat
  | _, [] => 0
  | 0, c :: rest =>
    if (p :: ps).isPrefixOf (c :: rest) then countSubAux p ps ps.length rest + 1
    else countSubAux p ps 0 rest
  | k + 1, _ :: rest => countSubAux p ps k rest

/-- Python `str.count` for a non-empty pattern. -/
def countSub (p : Char) (ps : List Char) (s : List Char) : Nat :=
  countSubAux p ps 0 s

/-- Split a list around the first occurrence of the non-empty pattern `p :: ps`:
returns `(before, after)` where the input is `before ++ (p :: ps) ++ after`. -/
def splitFirst (p : Char) (ps : List Char) : List Char → Option (List Char × List Char)
  | [] => none
  | c :: rest =>
    if (p :: ps).isPrefixOf (c :: rest) then some ([], rest.drop ps.length)
    else
      match splitFirst p ps rest with
      | none => none
      | some (u, v) => some (c :: u, v)

theorem splitFirst_sound {p : Char} {ps : List Char} :
    ∀ {l u v : List Char}, splitFirst p ps l = some (u, v) → l = u ++ (p :: ps) ++ v := by
  intro l
  induction l with
  | nil => intro u v h; simp [splitFirst] at h
  | cons c rest ih =>
    intro u v h
    rw [splitFirst] at h
    by_cases hpre : (p :: ps).isPrefixOf (c :: rest)
    · rw [if_pos hpre] at h
      simp only [Option.some.injEq, Prod.mk.injEq] at h
      obtain ⟨hu, hv⟩ := h
      obtain ⟨hpc, hps⟩ := List.cons_prefix_cons.mp (List.isPrefixOf_iff_prefix.mp hpre)
      obtain ⟨t, ht⟩ := hps
      subst hu; subst hv; subst hpc; subst ht
      simp [List.drop_left]
    · rw [if_neg hpre] at h
      cases hrec : splitFirst p ps rest with
      | none => rw [hrec] at h; simp at h
      | some uv =>
        obtain ⟨u', v'⟩ := uv
        rw [hrec] at h
        simp only [Option.some.injEq, Prod.mk.injEq] at h
        obtain ⟨hu, hv⟩ := h
        subst hu; subst hv
        have := ih hrec
        simp [this]

theorem splitFirst_length {p : Char} {ps : List Char} {l u v : List Char}
    (h : splitFirst p ps l = some (u, v)) : v.length < l.length := by
  have hs := splitFirst_sound h
  subst hs
  simp
  omega

/-- The first (leftmost, lazily captured) match of the regex `a(.*?)b` (with
`re.DOTALL`) for non-empty literal delimiters `a = p :: ps`, `b = q :: qs`:
returns the captured group and the remainder of the input after the match.
Lazy semantics: the match starts at the leftmost occurrence of `a` that is
followed by an occurrence of `b`, and captures up to the first such `b`; since
occurrences of `b` after a later `a` are also after the first `a`, it suffices
to look for `b` after the first `a`. -/
def firstLazyMatch (p : Char) (ps : List Char) (q : Char) (qs : List Char)
    (s : List Char) : Option (List Char × List Char) :=
  match splitFirst p ps s with
  | none => none
  | some (_, afterA) =>
    match splitFirst q qs afterA with
    | none => none
    | some (cap, rest) => some (cap, rest)

theorem firstLazyMatch_length {p : Char} {ps : List Char} {q : Char} {qs : List Char}
    {s cap rest : List Char} (h : firstLazyMatch p ps q qs s = some (cap, rest)) :
    rest.length < s.length := by
  unfold firstLazyMatch at h
  cases h1 : splitFirst p ps s with
  | none => simp [h1] at h
  | some ua =>
    obtain ⟨u, afterA⟩ := ua
    simp only [h1] at h
    cases h2 : splitFirst q qs afterA with
    | none => simp [h2] at h
    | some cr =>
      obtain ⟨c', r'⟩ := cr
      simp only [h2, Option.some.injEq, Prod.mk.injEq] at h
      obtain ⟨hc, hr⟩ := h
      subst hc; subst hr
      exact Nat.lt_trans (splitFirst_length h2) (splitFirst_length h1)

/-- `re.findall` of the regex `a(.*?)b` (with `re.DOTALL`) for non-empty literal
delimiters: collects the lazily captured groups of successive non-overlapping
matches, each scan resuming after the previous match.  Fuelled helper: each
match strictly shortens the remainder, so `s.length` fuel always suffices. -/
def findallLazyAux (p : Char) (ps : List Char) (q : Char) (qs : List Char) :
    Nat → List Char → List (List Char)
  | 0, _ => []
  | n + 1, s =>
    match firstLazyMatch p ps q qs s with
    | none => []
    | some (cap, rest) => cap :: findallLazyAux p ps q qs n rest

/-- `re.findall` of the regex `a(.*?)b` with `re.DOTALL`. -/
def findallLazy (p : Char) (ps : List Char) (q : Char) (qs : List Char)
    (s : List Char) : List (List Char) :=
  findallLazyAux p ps q qs (s.length + 1) s

/-- A pattern is overlap-free when no non-trivial proper suffix of it is also a
prefix of it (it has no non-empty border).  For such a pattern an occurrence
cannot straddle the boundary of an explicitly appended copy of the pattern. -/
def OverlapFree (a : List Char) : Prop :=
  ∀ d < a.length, 0 < d → a.drop d ≠ a.take (a.length - d)

instance (a : List Char) : Decidable (OverlapFree a) :=
  Nat.decidableBallLT a.length _

theorem subL_of_pfx {pat s : List Char} (h : pat <+: s) : subL pat s = true := by
  cases s with
  | nil => obtain ⟨t, ht⟩ := h; simp at ht; simp [ht, subL, List.isEmpty]
  | cons c rest => simp [subL, List.isPrefixOf_iff_prefix, h]

theorem subL_iff {pat s : List Char} :
    subL pat s = true ↔ ∃ u v, s = u ++ pat ++ v := by
  constructor
  · intro h
    induction s with
    | nil =>
      simp [subL, List.isEmpty_iff] at h
      exact ⟨[], [], by simp [h]⟩
    | cons c rest ih =>
      simp only [subL, Bool.or_eq_true] at h
      cases h with
      | inl h =>
        obtain ⟨t, ht⟩ := List.isPrefixOf_iff_prefix.mp h
        exact ⟨[], t, by simp [← ht]⟩
      | inr h =>
        obtain ⟨u, v, huv⟩ := ih h
        exact ⟨c :: u, v, by simp [huv]⟩
  · rintro ⟨u, v, rfl⟩
    induction u with
    | nil => exact subL_of_pfx ⟨v, by simp⟩
    | cons c u' ih =>
      simp only [subL, Bool.or_eq_true]
      right
      simpa using ih

theorem subL_trans {x y z : List Char} (hxy : subL x y = true) (hyz : subL y z = true) :
    subL x z = true := by
  obtain ⟨u, v, rfl⟩ := subL_iff.mp hxy
  obtain ⟨u', v', rfl⟩ := subL_iff.mp hyz
  exact subL_iff.mpr ⟨u' ++ u, v ++ v', by simp⟩

theorem subL_mono_pfx {x y s : List Char} (h : subL (x ++ y) s = true) :
    subL x s = true :=
  subL_trans (subL_of_pfx ⟨y, rfl⟩) h

theorem splitFirst_none_of_not_sub {p : Char} {ps s : List Char}
    (h : subL (p :: ps) s = false) : splitFirst p ps s = none := by
  induction s with
  | nil => rfl
  | cons c rest ih =>
    simp only [subL, Bool.or_eq_false_iff] at h
    obtain ⟨h1, h2⟩ := h
    rw [splitFirst, if_neg (by simp [h1]), ih h2]

/-- An overlap-free pattern `a = p :: ps` absent from a non-empty `pre` cannot
match at the very start of `pre ++ a ++ v`: the match would either put the whole
pattern inside `pre` or straddle the `pre`/`a` boundary, forcing a border. -/
theorem not_prefix_of_straddle {p : Char} {ps : List Char}
    (hof : OverlapFree (p :: ps)) {pre v : List Char} (hne : pre ≠ [])
    (hsub : subL (p :: ps) pre = false) :
    ¬ (p :: ps) <+: (pre ++ (p :: ps) ++ v) := by
  intro hpfx
  obtain ⟨t, ht⟩ := hpfx
  rw [List.append_assoc] at ht
  -- `ht : p :: ps ++ t = pre ++ (p :: ps ++ v)`
  by_cases hlen : ps.length + 1 ≤ pre.length
  · -- the pattern would be a prefix of `pre`, hence occur in it
    have h1 := congrArg (List.take (ps.length + 1)) ht
    rw [List.take_append_of_le_length hlen] at h1
    rw [show (p :: ps ++ t) = (p :: ps) ++ t by simp,
      List.take_left' (by simp : (p :: ps).length = ps.length + 1)] at h1
    have hpp : (p :: ps) <+: pre :=
      ⟨pre.drop (ps.length + 1), by rw [h1]; exact List.take_append_drop _ _⟩
    rw [subL_of_pfx hpp] at hsub
    cases hsub
  · -- the occurrence straddles the boundary: contradicts overlap-freeness
    push_neg at hlen
    have hd : 0 < pre.length := List.length_pos.mpr hne
    have h1 := congrArg (List.take (ps.length + 1)) ht
    rw [show (p :: ps ++ t) = (p :: ps) ++ t by simp,
      List.take_left' (by simp : (p :: ps).length = ps.length + 1)] at h1
    rw [List.take_append_eq_append_take,
      List.take_of_length_le (Nat.le_of_lt hlen),
      List.take_append_of_le_length (by simp)] at h1
    have h2 := congrArg (List.drop pre.length) h1
    rw [List.drop_left] at h2
    exact hof pre.length (by simpa using hlen) hd
      (by rw [h2]; simp)

/-- The central positioning lemma: for an overlap-free pattern `a = p :: ps`
that does not occur in `pre`, the first occurrence of `a` in
`pre ++ a ++ v` is exactly the explicit one. -/
theorem splitFirst_append {p : Char} {ps : List Char}
    (hof : OverlapFree (p :: ps)) :
    ∀ {pre v : List Char}, subL (p :: ps) pre = false →
      splitFirst p ps (pre ++ (p :: ps) ++ v) = some (pre, v) := by
  intro pre
  induction pre with
  | nil =>
    intro v _
    rw [List.nil_append, List.cons_append, splitFirst,
      if_pos (List.isPrefixOf_iff_prefix.mpr ⟨v, by simp⟩)]
    simp [List.drop_left]
  | cons c pre' ih =>
    intro v hsub
    have hsub2 := hsub
    simp only [subL, Bool.or_eq_false_iff] at hsub2
    obtain ⟨hnp, hsub'⟩ := hsub2
    have hnotpre : ¬ (p :: ps).isPrefixOf (c :: pre' ++ (p :: ps) ++ v) := by
      intro hpre
      exact not_prefix_of_straddle hof (by simp) hsub
        (by simpa using List.isPrefixOf_iff_prefix.mp hpre)
    have hcons : (c :: pre') ++ (p :: ps) ++ v = c :: (pre' ++ (p :: ps) ++ v) := by simp
    rw [hcons] at hnotpre ⊢
    rw [splitFirst, if_neg hnotpre, ih hsub']

theorem subL_false_mono {x y s : List Char} (h : subL x s = false) :
    subL (x ++ y) s = false := by
  cases hxy : subL (x ++ y) s
  · rfl
  · rw [subL_mono_pfx hxy] at h; cases h

theorem subL_false_of_sub {x y s : List Char} (hxy : subL x y = true)
    (h : subL x s = false) : subL y s = false := by
  cases hys : subL y s
  · rfl
  · rw [subL_trans hxy hys] at h; cases h

theorem findallLazyAux_nil {p : Char} {ps : List Char} {q : Char} {qs : List Char}
    {s : List Char} (n : Nat) (h : subL (p :: ps) s = false) :
    findallLazyAux p ps q qs n s = [] := by
  cases n with
  | zero => rfl
  | succ m =>
    rw [findallLazyAux]
    simp only [firstLazyMatch, splitFirst_none_of_not_sub h]

theorem findallLazy_nil {p : Char} {ps : List Char} {q : Char} {qs s : List Char}
    (h : subL (p :: ps) s = false) : findallLazy p ps q qs s = [] :=
  findallLazyAux_nil _ h

/-- With exactly one well-isolated occurrence of the delimiters, `findall`
returns exactly the enclosed capture. -/
theorem findallLazy_single {p : Char} {ps : List Char} {q : Char} {qs : List Char}
    (hofA : OverlapFree (p :: ps)) (hofB : OverlapFree (q :: qs))
    {pre body post : List Char}
    (hpre : subL (p :: ps) pre = false) (hbody : subL (q :: qs) body = false)
    (hpost : subL (p :: ps) post = false) :
    findallLazy p ps q qs (pre ++ (p :: ps) ++ body ++ (q :: qs) ++ post) = [body] := by
  have h1 : firstLazyMatch p ps q qs (pre ++ (p :: ps) ++ body ++ (q :: qs) ++ post)
      = some (body, post) := by
    rw [firstLazyMatch]
    rw [show pre ++ (p :: ps) ++ body ++ (q :: qs) ++ post
        = pre ++ (p :: ps) ++ (body ++ (q :: qs) ++ post) by simp]
    rw [splitFirst_append hofA hpre]
    simp only [splitFirst_append hofB hbody]
  rw [findallLazy, findallLazyAux, h1]
  show body :: findallLazyAux p ps q qs _ post = [body]
  rw [findallLazyAux_nil _ hpost]

end PyStr

/-! ## CodeRunner (src/scientistgpt/run_gpt_code/code_runner.py)

`extract_code` counts the triple-backtick fence delimiters in the response and,
when there are exactly two of them, tries the three regexes of `CODE_REGEXPS`
in order — `"```python\n(.*?)\n```"`, `"``` python\n(.*?)\n```"`,
`"```\n(.*?)\n```"` (all with `re.DOTALL`) — returning the stripped capture of
the first regex with exactly one match; in every other case it raises
`FailedExtractingCode(num_block_edges)`, modelled as `.error` carrying the
delimiter count. -/

namespace CodeRunner

open PyStr

/-- The fence delimiter `"```"`. -/
def fence : List Char := ['`', '`', '`']

/-- The language tags accepted by `CODE_REGEXPS`, in the order the regexes are
tried: `"```python\n..."`, `"``` python\n..."`, `"```\n..."`. -/
def acceptedTags : List (List Char) := ["python".toList, " python".toList, []]

/-- The opening delimiter of a fenced block with the given tag. -/
def opener (tag : List Char) : List Char := '`' :: '`' :: '`' :: (tag ++ ['\n'])

/-- The closing delimiter `"\n```"` shared by all three regexes. -/
def closer : List Char := '\n' :: '`' :: '`' :: '`' :: []

/-- The loop over `CODE_REGEXPS`: for each regex in order, take its `findall`
matches; if there is exactly one, return it stripped, else try the next. -/
def tryRegexps : List (List Char) → List Char → Option (List Char)
  | [], _ => none
  | tag :: rest, s =>
    match findallLazy '`' ('`' :: '`' :: (tag ++ ['\n'])) '\n' ['`', '`', '`'] s with
    | [m] => some (pyStrip m)
    | _ => tryRegexps rest s

/-- `CodeRunner.extract_code`: `num_block_edges = response.count('```')`; if it
is 2, loop over the regexes; otherwise (or if no regex has exactly one match)
raise `FailedExtractingCode(num_block_edges)`. -/
def extract_code (response : List Char) : Except Nat (List Char) :=
  let num_block_edges := countSub '`' ['`', '`'] response
  if num_block_edges = 2 then
    match tryRegexps acceptedTags response with
    | some code => .ok code
    | none => .error num_block_edges
  else .error num_block_edges

end CodeRunner

section ClaimC2

open PyStr CodeRunner

/-- C2: for every response containing exactly one triple-fenced block in an
accepted fence form (decomposition `pre ++ opener ++ body ++ "\n```" ++ post`
with no stray fence delimiters in the parts, exactly two `"```"` delimiters in
total, and no earlier-preference fence opener occurring in the response),
`extract_code` returns exactly the block's content stripped of leading and
trailing whitespace; and for every response whose fence-delimiter count is not
2 (zero blocks, or two or more blocks), it fails with an error carrying the
count of `"```"` occurrences. -/
theorem C2_extract_code_spec :
    (∀ pre tag body post,
      tag ∈ acceptedTags →
      subL fence pre = false →
      subL fence body = false →
      subL fence post = false →
      countSub '`' ['`', '`'] (pre ++ opener tag ++ body ++ closer ++ post) = 2 →
      (∀ t' ∈ acceptedTags.takeWhile (fun t => t ≠ tag),
          subL (opener t') (pre ++ opener tag ++ body ++ closer ++ post) = false) →
      extract_code (pre ++ opener tag ++ body ++ closer ++ post)
        = Except.ok (pyStrip body))
    ∧ (∀ response, countSub '`' ['`', '`'] response ≠ 2 →
      extract_code response = Except.error (countSub '`' ['`', '`'] response)) := by
  constructor
  · intro pre tag body post htag hpre hbody hpost hcount hprior
    have hofB : OverlapFree closer := by decide
    have hfc : subL fence closer = true := by decide
    have hbody' : subL closer body = false := subL_false_of_sub hfc hbody
    simp only [acceptedTags, List.mem_cons, List.not_mem_nil, or_false] at htag
    simp only [extract_code]
    rw [hcount, if_pos rfl]
    rcases htag with rfl | rfl | rfl
    · -- tag = "python": the first regex matches
      have hof1 : OverlapFree (opener "python".toList) := by decide
      have hm : findallLazy '`' ('`' :: '`' :: ("python".toList ++ ['\n']))
          '\n' ['`', '`', '`']
          (pre ++ opener "python".toList ++ body ++ closer ++ post) = [body] :=
        findallLazy_single hof1 hofB (subL_false_mono hpre) hbody'
          (subL_false_mono hpost)
      simp only [acceptedTags, tryRegexps, hm]
    · -- tag = " python": the first regex has no match, the second matches
      have hof2 : OverlapFree (opener " python".toList) := by decide
      have h1 : subL (opener "python".toList)
          (pre ++ opener " python".toList ++ body ++ closer ++ post) = false :=
        hprior _ (by decide)
      have hm1 : findallLazy '`' ('`' :: '`' :: ("python".toList ++ ['\n']))
          '\n' ['`', '`', '`']
          (pre ++ opener " python".toList ++ body ++ closer ++ post) = [] :=
        findallLazy_nil h1
      have hm : findallLazy '`' ('`' :: '`' :: (" python".toList ++ ['\n']))
          '\n' ['`', '`', '`']
          (pre ++ opener " python".toList ++ body ++ closer ++ post) = [body] :=
        findallLazy_single hof2 hofB (subL_false_mono hpre) hbody'
          (subL_false_mono hpost)
      simp only [acceptedTags, tryRegexps, hm1, hm]
    · -- tag = "": the first two regexes have no match, the third matches
      have hof3 : OverlapFree (opener []) := by decide
      have h1 : subL (opener "python".toList)
          (pre ++ opener [] ++ body ++ closer ++ post) = false :=
        hprior _ (by decide)
      have h2 : subL (opener " python".toList)
          (pre ++ opener [] ++ body ++ closer ++ post) = false :=
        hprior _ (by decide)
      have hm1 : findallLazy '`' ('`' :: '`' :: ("python".toList ++ ['\n']))
          '\n' ['`', '`', '`']
          (pre ++ opener [] ++ body ++ closer ++ post) = [] :=
        findallLazy_nil h1
      have hm2 : findallLazy '`' ('`' :: '`' :: (" python".toList ++ ['\n']))
          '\n' ['`', '`', '`']
          (pre ++ opener [] ++ body ++ closer ++ post) = [] :=
        findallLazy_nil h2
      have hm : findallLazy '`' ('`' :: '`' :: (([] : List Char) ++ ['\n']))
          '\n' ['`', '`', '`']
          (pre ++ opener [] ++ body ++ closer ++ post) = [body] :=
        findallLazy_single hof3 hofB (subL_false_mono hpre) hbody'
          (subL_false_mono hpost)
      simp only [acceptedTags, tryRegexps, hm1, hm2, hm]
  · intro response h
    simp only [extract_code]
    rw [if_neg h]

/-- Witness for C2 at concrete inputs: a response with one well-formed
`python`-tagged block extracts to the stripped body, and a response with no
fence fails carrying count 0. -/
theorem C2_extract_code_spec_witness :
    extract_code ("Sure:\n".toList ++ opener "python".toList ++ "x = 1  ".toList
        ++ closer ++ "\nDone".toList) = Except.ok (pyStrip "x = 1  ".toList)
    ∧ extract_code "no code".toList = Except.error 0 := by
  constructor
  · exact C2_extract_code_spec.1 "Sure:\n".toList "python".toList "x = 1  ".toList
      "\nDone".toList (by decide) (by decide) (by decide) (by decide) (by decide)
      (by decide)
  · exact C2_extract_code_spec.2 "no code".toList (by decide)

end ClaimC2

/-! ## Run issues (run_gpt_code/run_issues.py)

`run_issues.py` itself is not among the shown sources; the `RunIssue` fields
and the `CodeProblem` members are transcribed from their uses in
`output_file_requirements.py` and `df_checker.py`. -/

/-- The severity codes of `CodeProblem` that the shown sources use. -/
inductive CodeProblem where
  | OutputFileCallingSyntax
  | OutputFileContentA
  | OutputFileContentLevelA
  | OutputFileContentLevelC
  deriving DecidableEq, Repr

/-- A single validation issue, as constructed by the shown sources. -/
structure RunIssue where
  category : String
  item : Option String
  issue : String
  instructions : String
  code_problem : Option CodeProblem
  forgive_after : Option Nat
  deriving DecidableEq, Repr

/-! ## Output file requirements (run_gpt_code/output_file_requirements.py) -/

namespace OutputFiles

open PyStr

/-- All suffixes of a list, longest first (used to model `*` in glob patterns). -/
def tails : List Char → List (List Char)
  | [] => [[]]
  | c :: rest => (c :: rest) :: tails rest

/-- `fnmatch.fnmatch(name, pat)` for the pattern features the repository's
requirement filenames use: `*` (any run of characters), `?` (any single
character) and literal characters.  (`fnmatch` character classes `[...]` are
not used by any requirement in the repository and are not modelled.) -/
def globMatch : List Char → List Char → Bool
  | [], s => s.isEmpty
  | '*' :: ps, s => (tails s).any (fun t => globMatch ps t)
  | '?' :: ps, s =>
    match s with
    | [] => false
    | _ :: rest => globMatch ps rest
  | c :: ps, s =>
    match s with
    | [] => false
    | d :: rest => c = d && globMatch ps rest

/-- The concrete `OutputFileRequirement` subclasses of the source file. -/
inductive ReqKind where
  | data
  | baseContent
  | pickleContent
  | textContent
  | numericTextContent
  deriving DecidableEq, Repr

/-- An `OutputFileRequirement` dataclass instance.  The subclass is carried as
`kind`; `max_tokens` belongs to `TextContentOutputFileRequirement` and the two
precisions to `NumericTextContentOutputFileRequirement`. -/
structure OutputFileRequirement where
  filename : String
  minimal_count : Nat
  should_keep_file : Bool
  kind : ReqKind
  max_tokens : Option Nat
  target_precision : Nat
  source_precision : Nat
  deriving DecidableEq, Repr

/-- `isinstance(req, BaseContentOutputFileRequirement)`. -/
def isContentRequirement (r : OutputFileRequirement) : Bool :=
  match r.kind with
  | .data => false
  | _ => true

/-- `OutputFileRequirement.is_wildcard`: `'*' in self.filename or '?' in self.filename`. -/
def is_wildcard (r : OutputFileRequirement) : Bool :=
  r.filename.toList.contains '*' || r.filename.toList.contains '?'

/-- `OutputFileRequirement.matches(filename)`: `fnmatch(filename, self.filename)`. -/
def reqMatches (r : OutputFileRequirement) (filename : String) : Bool :=
  globMatch r.filename.toList filename.toList

/-- The run folder's file system: an association of file names to raw contents. -/
def FS := List (String × String)

/-- Look a file up in the run folder. -/
def fsLookup : FS → String → Option String
  | [], _ => none
  | (k, v) :: rest, path => if k = path then some v else fsLookup rest path

/-- `os.remove(path)`. -/
def fsRemove : FS → String → FS
  | [], _ => []
  | (k, v) :: rest, path =>
    if k = path then fsRemove rest path else (k, v) :: fsRemove rest path

/-- `OutputFileRequirement.get_content(file_path)`: `None` for plain (data)
requirements; the file's content for content requirements (text read, or the
unpickled stored object for pickle requirements, both modelled as the stored
string). -/
def get_content (r : OutputFileRequirement) (fs : FS) (path : String) : Option String :=
  match r.kind with
  | .data => none
  | _ => fsLookup fs path

/-- `OutputFileRequirement.delete_if_needed(file_path)`: remove the file unless
`should_keep_file` is set. -/
def delete_if_needed (r : OutputFileRequirement) (fs : FS) (path : String) : FS :=
  if !r.should_keep_file then fsRemove fs path else fs

/-- `OutputFileRequirement.get_content_and_delete_if_needed(file_path)`:
read the content, then delete if needed; return the content. -/
def get_content_and_delete_if_needed (r : OutputFileRequirement) (fs : FS)
    (path : String) : Option String × FS :=
  (get_content r fs path, delete_if_needed r fs path)

/-- The candidate filter of `OutputFileRequirements.get_single_content_file`:
content-bearing, not a wildcard, `minimal_count == 1`. -/
def isSingleContentCandidate (r : OutputFileRequirement) : Bool :=
  isContentRequirement r && !is_wildcard r && r.minimal_count = 1

/-- `OutputFileRequirements.get_single_content_file`: the filename of the
unique candidate, or `None` when there is not exactly one candidate. -/
def get_single_content_file (reqs : List OutputFileRequirement) : Option String :=
  match reqs.filter isSingleContentCandidate with
  | [r] => some r.filename
  | _ => none

/-- The inner loop of
`OutputFileRequirements._get_requirements_to_output_files_and_unmatched_files`:
the first requirement whose pattern matches the created file. -/
def findFirstMatching (reqs : List OutputFileRequirement) (f : String) :
    Option OutputFileRequirement :=
  reqs.find? (fun r => reqMatches r f)

/-- Append a file to the entry of requirement `r0` in the association built by
the reconciliation loop (the Python dict keyed by the — hashable, frozen —
requirement). -/
def addToReq : List (OutputFileRequirement × List String) → OutputFileRequirement →
    String → List (OutputFileRequirement × List String)
  | [], _, _ => []
  | (r, fs) :: rest, r0, f =>
    if r = r0 then (r, fs ++ [f]) :: rest else (r, fs) :: addToReq rest r0 f

/-- One iteration of the loop over `created_files`: assign the file to the
first matching requirement, or append it to the unmatched list. -/
def reconcileStep (reqs : List OutputFileRequirement)
    (st : List (OutputFileRequirement × List String) × List String) (f : String) :
    List (OutputFileRequirement × List String) × List String :=
  match findFirstMatching reqs f with
  | some r => (addToReq st.1 r f, st.2)
  | none => (st.1, st.2 ++ [f])

/-- `OutputFileRequirements._get_requirements_to_output_files_and_unmatched_files`:
start from `{requirement: [] for requirement in self}` and an empty unmatched
list, and process the created files in order. -/
def requirementsToOutputFilesAndUnmatched (reqs : List OutputFileRequirement)
    (created_files : List String) :
    List (OutputFileRequirement × List String) × List String :=
  created_files.foldl (reconcileStep reqs) (reqs.map (fun r => (r, [])), [])

end OutputFiles

namespace OutputFiles

open PyStr

/-- Python string comparison: lexicographic on code points. -/
def listCharLe : List Char → List Char → Bool
  | [], _ => true
  | _ :: _, [] => false
  | a :: as, b :: bs => if a = b then listCharLe as bs else a.val ≤ b.val

/-- Insert into a sorted list (used to model Python's `sorted`). -/
def insertSorted (x : String) : List String → List String
  | [] => [x]
  | y :: rest =>
    if listCharLe x.toList y.toList then x :: y :: rest else y :: insertSorted x rest

/-- Python `sorted` on a list of file names. -/
def pySorted : List String → List String
  | [] => []
  | x :: rest => insertSorted x (pySorted rest)

/-- Decode-and-delete every file of one requirement, in order, threading the
run folder state (one entry of the dict comprehension in
`convert_to_output_file_requirements_with_content`). -/
def convertFiles (r : OutputFileRequirement) :
    List String → FS → List (String × Option String) × FS
  | [], fs => ([], fs)
  | f :: rest, fs =>
    let step := get_content_and_delete_if_needed r fs f
    let tail := convertFiles r rest step.2
    ((f, step.1) :: tail.1, tail.2)

/-- Decode-and-delete all matched files requirement by requirement, threading
the run folder state (the outer dict comprehension). -/
def convertAll :
    List (OutputFileRequirement × List String) → FS →
      List (OutputFileRequirement × List (String × Option String)) × FS
  | [], fs => ([], fs)
  | (r, fls) :: rest, fs =>
    let entry := convertFiles r fls fs
    let tail := convertAll rest entry.2
    ((r, entry.1) :: tail.1, tail.2)

/-- `OutputFileRequirements.convert_to_output_file_requirements_with_content`:
reconcile the (sorted) created files against the requirements, then decode and
optionally delete every matched file.  Returns the with-content mapping and the
resulting run folder state. -/
def convert_to_output_file_requirements_with_content
    (reqs : List OutputFileRequirement) (created_files : List String) (fs : FS) :
    List (OutputFileRequirement × List (String × Option String)) × FS :=
  convertAll (requirementsToOutputFilesAndUnmatched reqs (pySorted created_files)).1 fs

/-- Modelled from the spec: `extract_to_nearest_newline(content, max_tokens)`
(`utils/text_extractors.py` is not among the shown sources) — the truncated
preview shown in the too-long issue: an initial portion of the content, cut
back to the nearest newline when one occurs in the truncated part. -/
def extractToNearestNewline (content : String) (bound : Nat) : String :=
  let t := content.toList.take bound
  if t.contains '\n' then
    String.mk ((t.reverse.dropWhile (fun c => !(c = '\n' : Bool))).reverse)
  else String.mk t

/-- `TextContentOutputFileRequirement.get_issues_for_output_file_content`.
The token counter (`count_number_of_tokens_in_message`, whose source lives in
the external-server layer) is abstracted as the function argument `ct`.
Non-text-content kinds use the base-class implementation, which returns no
issues — in particular `NumericTextContentOutputFileRequirement` derives from
`BaseContentOutputFileRequirement`, not from the text-content class, so it
performs no checks. -/
def get_issues_for_output_file_content (ct : String → Nat)
    (r : OutputFileRequirement) (filename content : String) : List RunIssue :=
  match r.kind with
  | .textContent =>
    (if (pyStrip content.toList).isEmpty then
      [{ category := "Output file content"
         item := some filename
         issue := "The code created the output file \"" ++ filename
           ++ "\", but the file is just empty!"
         instructions := "Please revise the code to make sure it correctly writes to the output file."
         code_problem := some CodeProblem.OutputFileContentLevelA
         forgive_after := none }]
    else [])
    ++ (match r.max_tokens with
        | some b =>
          if b < ct content then
            [{ category := "Output file content"
               item := some filename
               issue := "The code created the output file \"" ++ filename
                 ++ "\", but the file is too long!\n\n"
                 ++ "Here, for context, is the beginning of the output:\n```output\n"
                 ++ extractToNearestNewline content b ++ "\n```\n"
               instructions := "Only sensible-length output should be written to the file."
               code_problem := some CodeProblem.OutputFileContentLevelC
               forgive_after := none }]
          else []
        | none => [])
  | _ => []

/-- `Path(filename).suffix`: the last dot of the name together with what
follows it; empty when there is no dot, when the name starts with its only
dot, or when the dot is final. -/
def pathSuffix (filename : String) : String :=
  let cs := filename.toList
  let afterDot := (cs.reverse.takeWhile (fun c => !(c = '.' : Bool))).reverse
  if afterDot.length = cs.length then ""
  else if afterDot.length + 1 = cs.length then ""
  else if afterDot.isEmpty then ""
  else String.mk ('.' :: afterDot)

/-- `EXTS_TO_LABELS.get(suffix, 'output')`. -/
def extLabel (suffix : String) : String :=
  if suffix = ".tex" then "latex"
  else if suffix = ".txt" then "output"
  else if suffix = ".csv" then "csv"
  else "output"

/-- `BaseContentOutputFileRequirement.get_pretty_content`: `str(content)`
(the content is already a string here; the p-value stringification context
only affects embedded `PValue` objects, which plain string contents do not
carry), fenced and labelled when a filename is supplied. -/
def base_get_pretty_content (content : String) (filename : Option String) : String :=
  match filename with
  | some fn =>
    "\"" ++ fn ++ "\":\n```" ++ extLabel (pathSuffix fn) ++ "\n" ++ content ++ "\n```\n"
  | none => content

/-- One decimal digit. -/
def digitChar (n : Nat) : Char := Char.ofNat (48 + n)

/-- Decimal digits of a natural number, most significant first (fuelled). -/
def natDigitsAux : Nat → Nat → List Char
  | 0, _ => []
  | fuel + 1, n =>
    if n < 10 then [digitChar n]
    else natDigitsAux fuel (n / 10) ++ [digitChar (n % 10)]

/-- Decimal digits of a natural number, most significant first. -/
def natToDigits (n : Nat) : List Char := natDigitsAux (n + 1) n

/-- Is the character a decimal digit? -/
def isDigit (c : Char) : Bool := '0' ≤ c && c ≤ '9'

/-- Value of a list of decimal digits. -/
def digitsToNat (ds : List Char) : Nat :=
  ds.foldl (fun acc c => acc * 10 + (c.toNat - 48)) 0

/-- Round the decimal literal `intDigits.fracDigits` to `target` fractional
digits (round half away from zero on the first dropped digit), rendering the
result with exactly `target` fractional digits. -/
def roundLiteral (intDigits fracDigits : List Char) (target : Nat) : List Char :=
  let kept := digitsToNat (intDigits ++ fracDigits.take target)
  let rounded :=
    match fracDigits.drop target with
    | [] => kept
    | d :: _ => if '5' ≤ d then kept + 1 else kept
  let ds := natToDigits rounded
  let padded := List.replicate (target + 1 - ds.length) '0' ++ ds
  padded.take (padded.length - target) ++ '.' :: padded.drop (padded.length - target)

/-- Modelled from the spec: `round_floats(content, target_precision,
source_precision)` (`utils/text_numeric_formatting.py` is not among the shown
sources) — "round floating values to a target display precision when
rendering": every decimal literal `digits.digits` in the text whose fractional
part is longer than `target` digits is rounded to `target` fractional digits;
other text is unchanged. -/
def roundFloatsAux (target : Nat) : Nat → List Char → List Char
  | 0, l => l
  | _, [] => []
  | fuel + 1, c :: rest =>
    if isDigit c then
      let intDs := c :: rest.takeWhile isDigit
      let afterInt := rest.dropWhile isDigit
      match afterInt with
      | '.' :: afterDot =>
        let fracDs := afterDot.takeWhile isDigit
        let afterFrac := afterDot.dropWhile isDigit
        if target < fracDs.length then
          roundLiteral intDs fracDs target ++ roundFloatsAux target fuel afterFrac
        else intDs ++ '.' :: fracDs ++ roundFloatsAux target fuel afterFrac
      | _ => intDs ++ roundFloatsAux target fuel afterInt
    else c :: roundFloatsAux target fuel rest

/-- Modelled from the spec: round the floating values appearing in a rendered
content string to the target display precision.  (The fuel, at least the text
length, always suffices: every scan step strictly shortens the text.) -/
def round_floats (content : String) (target : Nat) (source : Nat) : String :=
  String.mk (roundFloatsAux target (content.toList.length + 1) content.toList)

/-- `get_pretty_content` dispatch: `NumericTextContentOutputFileRequirement`
post-processes the base rendering with `round_floats(..., target_precision,
source_precision)`; every other requirement kind uses the base rendering. -/
def get_pretty_content (r : OutputFileRequirement) (content : String)
    (filename : Option String) : String :=
  match r.kind with
  | .numericTextContent =>
    round_floats (base_get_pretty_content content filename)
      r.target_precision r.source_precision
  | _ => base_get_pretty_content content filename

end OutputFiles

section ClaimC10

/-- C10: `get_single_content_file` returns the filename of a content-bearing
requirement exactly when precisely one requirement is content-bearing,
non-wildcard and of `minimal_count` 1; otherwise it returns `None`. -/
theorem C10_get_single_content_file (reqs : List OutputFiles.OutputFileRequirement) :
    (∀ f, OutputFiles.get_single_content_file reqs = some f ↔
      ∃ r, reqs.filter OutputFiles.isSingleContentCandidate = [r] ∧ r.filename = f)
    ∧ (OutputFiles.get_single_content_file reqs = none ↔
      (reqs.filter OutputFiles.isSingleContentCandidate).length ≠ 1) := by
  unfold OutputFiles.get_single_content_file
  cases h : reqs.filter OutputFiles.isSingleContentCandidate with
  | nil => simp
  | cons r rest =>
    cases rest with
    | nil => simp
    | cons r2 rest2 => simp

end ClaimC10

section ClaimC4

/-- C4: for a text-content requirement, empty (whitespace-only) content yields
exactly one content-level-A issue; a token count exceeding the `max_tokens`
budget yields exactly one content-level-C issue whose text contains the
truncated preview; non-empty content within budget yields no issue.  The token
counter is universally quantified, standing for the external tokenizer. -/
theorem C4_text_content_issue_rules (ct : String → Nat)
    (r : OutputFiles.OutputFileRequirement) (filename content : String)
    (hkind : r.kind = OutputFiles.ReqKind.textContent) :
    ((OutputFiles.get_issues_for_output_file_content ct r filename content).filter
        (fun i => i.code_problem = some CodeProblem.OutputFileContentLevelA)).length
      = (if (PyStr.pyStrip content.toList).isEmpty then 1 else 0)
    ∧ ((OutputFiles.get_issues_for_output_file_content ct r filename content).filter
        (fun i => i.code_problem = some CodeProblem.OutputFileContentLevelC)).length
      = (match r.max_tokens with
         | some b => if b < ct content then 1 else 0
         | none => 0)
    ∧ (∀ b, r.max_tokens = some b →
        ∀ i ∈ (OutputFiles.get_issues_for_output_file_content ct r filename content).filter
          (fun i => i.code_problem = some CodeProblem.OutputFileContentLevelC),
          PyStr.subL (OutputFiles.extractToNearestNewline content b).toList
            i.issue.toList = true)
    ∧ (¬ (PyStr.pyStrip content.toList).isEmpty = true →
        (∀ b, r.max_tokens = some b → ct content ≤ b) →
        OutputFiles.get_issues_for_output_file_content ct r filename content = []) := by
  unfold OutputFiles.get_issues_for_output_file_content
  rw [hkind]
  refine ⟨?_, ?_, ?_, ?_⟩
  · by_cases hemp : PyStr.pyStrip content.data = [] <;>
      cases hmax : r.max_tokens with
      | none => simp [List.isEmpty_iff, hemp]
      | some b =>
        by_cases hlong : b < ct content <;>
          simp [List.isEmpty_iff, hemp, hlong]
  · by_cases hemp : PyStr.pyStrip content.data = [] <;>
      cases hmax : r.max_tokens with
      | none => simp [List.isEmpty_iff, hemp]
      | some b =>
        by_cases hlong : b < ct content <;>
          simp [List.isEmpty_iff, hemp, hlong]
  · intro b hb i hi
    rw [hb] at hi
    by_cases hlong : b < ct content
    · have hi' : i.issue = "The code created the output file \"" ++ filename
          ++ "\", but the file is too long!\n\n"
          ++ "Here, for context, is the beginning of the output:\n```output\n"
          ++ OutputFiles.extractToNearestNewline content b ++ "\n```\n" := by
        by_cases hemp : PyStr.pyStrip content.data = [] <;>
          · simp [List.isEmpty_iff, hemp, hlong] at hi
            rw [hi]
      rw [hi']
      apply PyStr.subL_iff.mpr
      refine ⟨("The code created the output file \"" ++ filename
        ++ "\", but the file is too long!\n\n"
        ++ "Here, for context, is the beginning of the output:\n```output\n").toList,
        ("\n```\n" : String).toList, ?_⟩
      simp [String.toList, String.data_append]
    · by_cases hemp : PyStr.pyStrip content.data = [] <;>
        simp [List.isEmpty_iff, hemp, hlong] at hi
  · intro hemp hbudget
    simp only [List.isEmpty_iff, String.toList] at hemp
    cases hmax : r.max_tokens with
    | none => simp [List.isEmpty_iff, hemp]
    | some b =>
      have := hbudget b hmax
      simp [List.isEmpty_iff, hemp, Nat.not_lt.mpr this]

/-- Witness for C4 at concrete inputs: with a 5-token budget and a counter
charging one token per character, `"   "` (whitespace only) yields the single
level-A issue, and a 9-character content yields the single level-C issue. -/
theorem C4_text_content_issue_rules_witness :
    ((OutputFiles.get_issues_for_output_file_content (fun s => s.length)
        ⟨"output.txt", 1, false, OutputFiles.ReqKind.textContent, some 5, 4, 10⟩
        "output.txt" "   ").filter
      (fun i => i.code_problem = some CodeProblem.OutputFileContentLevelA)).length = 1
    ∧ ((OutputFiles.get_issues_for_output_file_content (fun s => s.length)
        ⟨"output.txt", 1, false, OutputFiles.ReqKind.textContent, some 5, 4, 10⟩
        "output.txt" "123456789").filter
      (fun i => i.code_problem = some CodeProblem.OutputFileContentLevelC)).length = 1 := by
  constructor
  · have h := (C4_text_content_issue_rules (fun s => s.length)
      ⟨"output.txt", 1, false, OutputFiles.ReqKind.textContent, some 5, 4, 10⟩
      "output.txt" "   " rfl).1
    rw [h]
    decide
  · have h := (C4_text_content_issue_rules (fun s => s.length)
      ⟨"output.txt", 1, false, OutputFiles.ReqKind.textContent, some 5, 4, 10⟩
      "output.txt" "123456789" rfl).2.1
    rw [h]
    decide

end ClaimC4

section ClaimC7

/-- C7 counterexample: a numeric text-content requirement with empty file
content produces **no** issue at all (in particular no content-level-A issue),
because `NumericTextContentOutputFileRequirement` derives from
`BaseContentOutputFileRequirement` — not from
`TextContentOutputFileRequirement` — so validation performs no non-empty or
token-budget check, contrary to the claim. -/
theorem C7_counterexample :
    OutputFiles.get_issues_for_output_file_content (fun _ => 0)
      ⟨"results.txt", 1, false, OutputFiles.ReqKind.numericTextContent, some 100, 4, 10⟩
      "results.txt" "" = []
    ∧ (PyStr.pyStrip ("" : String).toList).isEmpty = true := by
  exact ⟨rfl, rfl⟩

/-- C7 amended: rendering a numeric text-content requirement applies
`round_floats` with the target display precision on top of the base rendering,
while validation performs no check at all — it returns no issues for every
content (it does not perform the text-content empty/budget checks). -/
theorem C7_numeric_requirement (ct : String → Nat)
    (r : OutputFiles.OutputFileRequirement) (filename content : String)
    (hkind : r.kind = OutputFiles.ReqKind.numericTextContent) :
    OutputFiles.get_issues_for_output_file_content ct r filename content = []
    ∧ (∀ fn, OutputFiles.get_pretty_content r content fn
        = OutputFiles.round_floats (OutputFiles.base_get_pretty_content content fn)
            r.target_precision r.source_precision) := by
  unfold OutputFiles.get_issues_for_output_file_content OutputFiles.get_pretty_content
  rw [hkind]
  exact ⟨rfl, fun fn => rfl⟩

/-- Witness for C7 at a concrete input: the requirement renders `"pi is
3.14159265"` with its floats rounded (to 4 digits), and validation returns no
issue even for over-budget content. -/
theorem C7_numeric_requirement_witness :
    OutputFiles.get_issues_for_output_file_content (fun _ => 1000)
      ⟨"results.txt", 1, false, OutputFiles.ReqKind.numericTextContent, some 100, 4, 10⟩
      "results.txt" "pi is 3.14159265" = []
    ∧ OutputFiles.get_pretty_content
      ⟨"results.txt", 1, false, OutputFiles.ReqKind.numericTextContent, some 100, 4, 10⟩
      "pi is 3.14159265" none
      = OutputFiles.round_floats
          (OutputFiles.base_get_pretty_content "pi is 3.14159265" none) 4 10 := by
  constructor
  · exact (C7_numeric_requirement (fun _ => 1000)
      ⟨"results.txt", 1, false, OutputFiles.ReqKind.numericTextContent, some 100, 4, 10⟩
      "results.txt" "pi is 3.14159265" rfl).1
  · exact (C7_numeric_requirement (fun _ => 1000)
      ⟨"results.txt", 1, false, OutputFiles.ReqKind.numericTextContent, some 100, 4, 10⟩
      "results.txt" "pi is 3.14159265" rfl).2 none

end ClaimC7

namespace OutputFiles

/-- The state of the reconciliation loop after processing the created files
`P`: each requirement holds the processed files whose first matching
requirement it is, and the unmatched list holds the processed files matched by
no requirement, both in processing order. -/
def reconcileState (reqs : List OutputFileRequirement) (P : List String) :
    List (OutputFileRequirement × List String) × List String :=
  (reqs.map (fun r => (r, P.filter (fun f => findFirstMatching reqs f = some r))),
   P.filter (fun f => (findFirstMatching reqs f).isNone))

theorem addToReq_map (filt : OutputFileRequirement → List String)
    (r0 : OutputFileRequirement) (f : String) :
    ∀ reqs' : List OutputFileRequirement, reqs'.Nodup → r0 ∈ reqs' →
      addToReq (reqs'.map fun r => (r, filt r)) r0 f
        = reqs'.map (fun r => (r, if r = r0 then filt r ++ [f] else filt r)) := by
  intro reqs'
  induction reqs' with
  | nil => intro _ h; cases h
  | cons a rest ih =>
    intro hnd hmem
    rw [List.map_cons, List.map_cons, addToReq]
    by_cases ha : a = r0
    · subst ha
      rw [if_pos rfl, if_pos rfl]
      congr 1
      apply List.map_congr_left
      intro r hr
      have hne : ¬ r = a := by
        rintro rfl
        exact (List.nodup_cons.mp hnd).1 hr
      rw [if_neg hne]
    · rw [if_neg ha, if_neg ha]
      congr 1
      apply ih (List.nodup_cons.mp hnd).2
      rcases List.mem_cons.mp hmem with h | h
      · exact absurd h.symm ha
      · exact h

theorem reconcileStep_state {reqs : List OutputFileRequirement} (hnd : reqs.Nodup)
    (P : List String) (f : String) :
    reconcileStep reqs (reconcileState reqs P) f = reconcileState reqs (P ++ [f]) := by
  unfold reconcileStep reconcileState
  cases hf : findFirstMatching reqs f with
  | none =>
    simp only
    refine Prod.ext ?_ ?_
    · apply List.map_congr_left
      intro r _
      simp [List.filter_append, hf]
    · simp [List.filter_append, hf]
  | some r0 =>
    have hmem : r0 ∈ reqs := List.mem_of_find?_eq_some hf
    simp only
    refine Prod.ext ?_ ?_
    · rw [addToReq_map _ r0 f reqs hnd hmem]
      apply List.map_congr_left
      intro r _
      simp only [List.filter_append]
      by_cases hr : r = r0
      · subst hr
        simp [hf]
      · simp [hf, hr]
        intro heq
        exact absurd heq.symm hr
    · simp [List.filter_append, hf]

/-- The reconciliation loop computes `reconcileState` over the whole file list. -/
theorem requirementsToOutputFiles_eq {reqs : List OutputFileRequirement}
    (hnd : reqs.Nodup) (files : List String) :
    requirementsToOutputFilesAndUnmatched reqs files = reconcileState reqs files := by
  have h0 : ((reqs.map (fun r => (r, ([] : List String)))), ([] : List String))
      = reconcileState reqs [] := by
    simp [reconcileState]
  rw [requirementsToOutputFilesAndUnmatched, h0]
  suffices h : ∀ fs P, List.foldl (reconcileStep reqs) (reconcileState reqs P) fs
      = reconcileState reqs (P ++ fs) by
    simpa using h files []
  intro fs
  induction fs with
  | nil => simp
  | cons f rest ih =>
    intro P
    rw [List.foldl_cons, reconcileStep_state hnd, ih]
    simp

theorem count_filter_eq (f : String) (p : String → Bool) (l : List String) :
    (l.filter p).count f = if p f then l.count f else 0 := by
  induction l with
  | nil => simp
  | cons x rest ih =>
    by_cases hx : p x
    · rw [List.filter_cons_of_pos hx, List.count_cons, List.count_cons, ih]
      by_cases hxf : x = f
      · subst hxf
        simp [hx]
      · simp [hxf]
    · rw [List.filter_cons_of_neg hx, List.count_cons, ih]
      by_cases hxf : x = f
      · subst hxf
        simp [hx]
      · simp [hxf]

theorem sum_map_ite_eq {α : Type} [DecidableEq α] (c : Nat) (a : α) :
    ∀ l : List α, l.Nodup → a ∈ l →
      (l.map (fun x => if x = a then c else 0)).sum = c := by
  intro l
  induction l with
  | nil => intro _ h; cases h
  | cons x rest ih =>
    intro hnd hmem
    rw [List.map_cons, List.sum_cons]
    by_cases hx : x = a
    · subst hx
      have : ∀ r ∈ rest, ¬ r = x := by
        intro r hr
        rintro rfl
        exact (List.nodup_cons.mp hnd).1 hr
      rw [if_pos rfl]
      have hz : (rest.map (fun y => if y = x then c else 0)).sum = 0 := by
        rw [List.map_congr_left (fun r hr => if_neg (this r hr))]
        simp
      rw [hz]
      simp
    · rw [if_neg hx, ih (List.nodup_cons.mp hnd).2
        (by rcases List.mem_cons.mp hmem with h | h
            · exact absurd h.symm hx
            · exact h)]
      simp

end OutputFiles

section ClaimC3

/-- C3: reconciliation assigns each created file to the first requirement (in
declaration order) whose pattern matches it; files matching no requirement go
to the unmatched list in order; and each created file appears exactly once
overall (counting multiplicity: the per-requirement counts plus the unmatched
count add up to the file's count in the created list). -/
theorem C3_reconciliation (reqs : List OutputFiles.OutputFileRequirement)
    (files : List String) (hnd : reqs.Nodup) :
    (∀ r fls, (r, fls) ∈ (OutputFiles.requirementsToOutputFilesAndUnmatched reqs files).1 →
      ∀ f ∈ fls, OutputFiles.findFirstMatching reqs f = some r)
    ∧ (OutputFiles.requirementsToOutputFilesAndUnmatched reqs files).2
        = files.filter (fun f => (OutputFiles.findFirstMatching reqs f).isNone)
    ∧ ∀ f, (((OutputFiles.requirementsToOutputFilesAndUnmatched reqs files).1.map
          (fun p => p.2.count f)).sum
        + (OutputFiles.requirementsToOutputFilesAndUnmatched reqs files).2.count f)
        = files.count f := by
  rw [OutputFiles.requirementsToOutputFiles_eq hnd files]
  refine ⟨?_, rfl, ?_⟩
  · intro r fls hmem f hf
    obtain ⟨r', _, heq⟩ := List.mem_map.mp hmem
    obtain ⟨hr1, hr2⟩ := Prod.mk.injEq .. ▸ heq
    subst hr1
    rw [← hr2] at hf
    have := List.of_mem_filter hf
    exact of_decide_eq_true this
  · intro f
    unfold OutputFiles.reconcileState
    simp only [List.map_map, Function.comp_def]
    rw [OutputFiles.count_filter_eq]
    rw [show (fun r => List.count f
          (List.filter (fun g => decide (OutputFiles.findFirstMatching reqs g = some r)) files))
        = (fun r => if OutputFiles.findFirstMatching reqs f = some r then files.count f else 0)
      from funext fun r => by rw [OutputFiles.count_filter_eq]; simp]
    cases hfind : OutputFiles.findFirstMatching reqs f with
    | none =>
      simp
    | some r0 =>
      have hmem : r0 ∈ reqs := List.mem_of_find?_eq_some hfind
      rw [show (fun r => if some r0 = some r then files.count f else 0)
          = (fun r => if r = r0 then files.count f else 0)
        from funext fun r => by simp [eq_comm]]
      rw [OutputFiles.sum_map_ite_eq _ r0 reqs hnd hmem]
      simp

/-- Witness for C3 at a concrete input: two requirements (an exact name and a
wildcard) and three files, of which one matches the first requirement, one only
the wildcard, and one neither. -/
theorem C3_reconciliation_witness :
    (∀ r fls, (r, fls) ∈ (OutputFiles.requirementsToOutputFilesAndUnmatched
        [⟨"results.txt", 1, false, OutputFiles.ReqKind.textContent, some 5, 4, 10⟩,
         ⟨"df_*.pkl", 0, true, OutputFiles.ReqKind.pickleContent, none, 4, 10⟩]
        ["results.txt", "df_1.pkl", "rogue.bin"]).1 →
      ∀ f ∈ fls, OutputFiles.findFirstMatching
        [⟨"results.txt", 1, false, OutputFiles.ReqKind.textContent, some 5, 4, 10⟩,
         ⟨"df_*.pkl", 0, true, OutputFiles.ReqKind.pickleContent, none, 4, 10⟩] f = some r)
    ∧ (OutputFiles.requirementsToOutputFilesAndUnmatched
        [⟨"results.txt", 1, false, OutputFiles.ReqKind.textContent, some 5, 4, 10⟩,
         ⟨"df_*.pkl", 0, true, OutputFiles.ReqKind.pickleContent, none, 4, 10⟩]
        ["results.txt", "df_1.pkl", "rogue.bin"]).2 = ["rogue.bin"] := by
  constructor
  · exact (C3_reconciliation _ _ (by decide)).1
  · rw [(C3_reconciliation
      [⟨"results.txt", 1, false, OutputFiles.ReqKind.textContent, some 5, 4, 10⟩,
       ⟨"df_*.pkl", 0, true, OutputFiles.ReqKind.pickleContent, none, 4, 10⟩]
      ["results.txt", "df_1.pkl", "rogue.bin"] (by decide)).2.1]
    decide

end ClaimC3

namespace OutputFiles

theorem fsLookup_remove_self (fs : FS) (f : String) :
    fsLookup (fsRemove fs f) f = none := by
  induction fs with
  | nil => rfl
  | cons kv rest ih =>
    obtain ⟨k, v⟩ := kv
    rw [fsRemove]
    by_cases hk : k = f
    · rw [if_pos hk, ih]
    · rw [if_neg hk, fsLookup, if_neg hk, ih]

theorem fsLookup_remove_ne (fs : FS) {f g : String} (h : ¬ g = f) :
    fsLookup (fsRemove fs f) g = fsLookup fs g := by
  induction fs with
  | nil => rfl
  | cons kv rest ih =>
    obtain ⟨k, v⟩ := kv
    rw [fsRemove]
    by_cases hk : k = f
    · rw [if_pos hk]
      have hkg : ¬ k = g := by
        rw [hk]
        intro he
        exact h he.symm
      rw [ih, fsLookup, if_neg hkg]
    · rw [if_neg hk, fsLookup, fsLookup, ih]

theorem delete_if_needed_lookup (r : OutputFileRequirement) (fs : FS) (f path : String) :
    fsLookup (delete_if_needed r fs f) path
      = if !r.should_keep_file && (path = f : Bool) then none else fsLookup fs path := by
  unfold delete_if_needed
  cases hk : r.should_keep_file
  · by_cases hp : path = f
    · subst hp
      simp [fsLookup_remove_self]
    · simp [hp, fsLookup_remove_ne fs hp]
  · simp

theorem convertFiles_fs (r : OutputFileRequirement) :
    ∀ (fls : List String) (fs : FS) (path : String),
      fsLookup (convertFiles r fls fs).2 path
        = if !r.should_keep_file && fls.contains path then none
          else fsLookup fs path := by
  intro fls
  induction fls with
  | nil => intro fs path; simp [convertFiles]
  | cons f rest ih =>
    intro fs path
    rw [convertFiles]
    simp only [get_content_and_delete_if_needed]
    rw [ih, delete_if_needed_lookup]
    by_cases hkeep : r.should_keep_file
    · simp [hkeep]
    · by_cases hpf : path = f
      · subst hpf
        simp [hkeep]
      · by_cases hrest : rest.contains path
        · simp [hkeep, hpf, hrest]
        · simp [hkeep, hpf, hrest]

theorem get_content_congr (r : OutputFileRequirement) {fs fs0 : FS} {f : String}
    (h : fsLookup fs f = fsLookup fs0 f) :
    get_content r fs f = get_content r fs0 f := by
  unfold get_content
  cases r.kind <;> simp [h]

theorem convertFiles_contents (r : OutputFileRequirement) :
    ∀ (fls : List String) (fs fs0 : FS),
      (∀ f ∈ fls, fsLookup fs f = fsLookup fs0 f) → fls.Nodup →
      (convertFiles r fls fs).1 = fls.map (fun f => (f, get_content r fs0 f)) := by
  intro fls
  induction fls with
  | nil => intro fs fs0 _ _; rfl
  | cons f rest ih =>
    intro fs fs0 hagree hnd
    rw [convertFiles]
    simp only [get_content_and_delete_if_needed, List.map_cons]
    have htail := ih (delete_if_needed r fs f) fs0
      (by
        intro g hg
        have hgf : ¬ (g = f) := by
          rintro rfl
          exact (List.nodup_cons.mp hnd).1 hg
        rw [delete_if_needed_lookup, if_neg (by simp [hgf])]
        exact hagree g (List.mem_cons_of_mem f hg))
      (List.nodup_cons.mp hnd).2
    rw [htail, get_content_congr r (hagree f (List.mem_cons_self f rest))]

theorem convertAll_fs :
    ∀ (ents : List (OutputFileRequirement × List String)) (fs : FS) (path : String),
      fsLookup (convertAll ents fs).2 path
        = if ents.any (fun p => !p.1.should_keep_file && p.2.contains path) then none
          else fsLookup fs path := by
  intro ents
  induction ents with
  | nil => intro fs path; simp [convertAll]
  | cons ent rest ih =>
    intro fs path
    obtain ⟨r, fls⟩ := ent
    rw [convertAll]
    simp only
    rw [ih, convertFiles_fs]
    by_cases hrest : (rest.any fun p => !p.1.should_keep_file && p.2.contains path) = true
    · rw [if_pos hrest, if_pos (by rw [List.any_cons, hrest, Bool.or_true])]
    · by_cases hhead : (!r.should_keep_file && fls.contains path) = true
      · rw [if_neg hrest, if_pos hhead,
          if_pos (by
            rw [List.any_cons,
              show (!(r, fls).1.should_keep_file && (r, fls).2.contains path) = true from hhead,
              Bool.true_or])]
      · have hr : (rest.any fun p => !p.1.should_keep_file && p.2.contains path) = false :=
          Bool.not_eq_true _ ▸ hrest
        have hh : (!r.should_keep_file && fls.contains path) = false :=
          Bool.not_eq_true _ ▸ hhead
        rw [if_neg hrest, if_neg hhead, if_neg (by
          rw [List.any_cons,
            show (!(r, fls).1.should_keep_file && (r, fls).2.contains path) = false from hh,
            hr]
          simp)]

theorem convertAll_contents :
    ∀ (ents : List (OutputFileRequirement × List String)) (fs fs0 : FS),
      (∀ f, f ∈ (ents.map (fun p => p.2)).flatten → fsLookup fs f = fsLookup fs0 f) →
      ((ents.map (fun p => p.2)).flatten).Nodup →
      (convertAll ents fs).1
        = ents.map (fun p => (p.1, p.2.map (fun f => (f, get_content p.1 fs0 f)))) := by
  intro ents
  induction ents with
  | nil => intro fs fs0 _ _; rfl
  | cons ent rest ih =>
    intro fs fs0 hagree hnd
    obtain ⟨r, fls⟩ := ent
    simp only [List.map_cons, List.flatten_cons] at hagree hnd
    have hnd' := List.nodup_append.mp hnd
    rw [convertAll]
    simp only [List.map_cons]
    have hhead := convertFiles_contents r fls fs fs0
      (fun f hf => hagree f (List.mem_append_left _ hf)) hnd'.1
    have htail := ih (convertFiles r fls fs).2 fs0
      (by
        intro f hf
        have hnf : fls.contains f = false := by
          cases hc : fls.contains f
          · rfl
          · exact absurd hf (hnd'.2.2 (by simpa using hc))
        rw [convertFiles_fs,
          show (!r.should_keep_file && fls.contains f) = false from by
            rw [hnf, Bool.and_false]]
        simp only [Bool.false_eq_true, if_false]
        exact hagree f (List.mem_append_right _ hf))
      hnd'.2.1
    rw [hhead, htail]

end OutputFiles

namespace OutputFiles

theorem insertSorted_perm (x : String) (l : List String) :
    (insertSorted x l).Perm (x :: l) := by
  induction l with
  | nil => exact List.Perm.refl _
  | cons y rest ih =>
    rw [insertSorted]
    by_cases hle : listCharLe x.toList y.toList
    · rw [if_pos hle]
    · rw [if_neg hle]
      exact List.Perm.trans (List.Perm.cons y ih) (List.Perm.swap x y rest)

theorem pySorted_perm (l : List String) : (pySorted l).Perm l := by
  induction l with
  | nil => exact List.Perm.refl _
  | cons x rest ih =>
    rw [pySorted]
    exact List.Perm.trans (insertSorted_perm x (pySorted rest)) (List.Perm.cons x ih)

theorem any_map_eq {α β : Type} (f : α → β) (p : β → Bool) :
    ∀ l : List α, (l.map f).any p = l.any (fun a => p (f a)) := by
  intro l
  induction l with
  | nil => rfl
  | cons a rest ih => simp [List.any_cons, ih]

theorem any_congr_eq {α : Type} {p q : α → Bool} :
    ∀ l : List α, (∀ a ∈ l, p a = q a) → l.any p = l.any q := by
  intro l
  induction l with
  | nil => intro _; rfl
  | cons a rest ih =>
    intro h
    simp only [List.any_cons]
    rw [h a (List.mem_cons_self a rest), ih (fun b hb => h b (List.mem_cons_of_mem a hb))]

theorem pySorted_nodup {l : List String} (h : l.Nodup) : (pySorted l).Nodup :=
  (pySorted_perm l).nodup_iff.mpr h

/-- The per-requirement file lists produced by reconciliation are jointly
duplicate-free: the lists select disjoint parts of a duplicate-free file list
(a file goes only to the requirement its first match designates). -/
theorem flatten_filter_nodup {α : Type} [DecidableEq α] (g : String → Option α)
    {S : List String} (hS : S.Nodup) :
    ∀ l : List α, l.Nodup →
      ((l.map (fun r => S.filter (fun f => g f = some r))).flatten).Nodup := by
  intro l
  induction l with
  | nil => intro _; simp
  | cons a rest ih =>
    intro hnd
    simp only [List.map_cons, List.flatten_cons]
    apply List.nodup_append.mpr
    refine ⟨hS.filter _, ih (List.nodup_cons.mp hnd).2, ?_⟩
    intro f hf1 hf2
    have h1 : g f = some a := of_decide_eq_true (List.mem_filter.mp hf1).2
    obtain ⟨lsub, hlsub, hfmem⟩ := List.mem_flatten.mp hf2
    obtain ⟨r', hr'mem, hre⟩ := List.mem_map.mp hlsub
    rw [← hre] at hfmem
    have h2 : g f = some r' := of_decide_eq_true (List.mem_filter.mp hfmem).2
    rw [h1] at h2
    injection h2 with h2
    rw [h2] at hnd
    exact (List.nodup_cons.mp hnd).1 hr'mem

end OutputFiles

section ClaimC8

/-- C8: converting requirements to the with-content mapping decodes each
matched file's content from the pre-conversion disk state (decode happens
before the delete touches the file) and removes a file from disk exactly when
it was matched by a requirement whose retain flag (`should_keep_file`) is not
set; all other files — retained and unmatched alike — are left on disk
unchanged.  (The requirement list is duplicate-free, as the Python dict keyed
by the frozen requirement presumes, and the created-file list — file names
found on disk — is duplicate-free.) -/
theorem C8_convert_decode_and_delete (reqs : List OutputFiles.OutputFileRequirement)
    (files : List String) (fs : OutputFiles.FS)
    (hnd : reqs.Nodup) (hfnd : files.Nodup) :
    (∀ r entries,
      (r, entries) ∈ (OutputFiles.convert_to_output_file_requirements_with_content
        reqs files fs).1 →
      ∀ f c, (f, c) ∈ entries → c = OutputFiles.get_content r fs f)
    ∧ (∀ path,
      OutputFiles.fsLookup (OutputFiles.convert_to_output_file_requirements_with_content
        reqs files fs).2 path
      = if (OutputFiles.convert_to_output_file_requirements_with_content reqs files fs).1.any
            (fun p => !p.1.should_keep_file && (p.2.map Prod.fst).contains path)
        then none else OutputFiles.fsLookup fs path) := by
  have hSnd : (OutputFiles.pySorted files).Nodup := OutputFiles.pySorted_nodup hfnd
  have hassign : (OutputFiles.requirementsToOutputFilesAndUnmatched reqs
      (OutputFiles.pySorted files)).1
      = reqs.map (fun r => (r, (OutputFiles.pySorted files).filter
          (fun f => OutputFiles.findFirstMatching reqs f = some r))) := by
    rw [OutputFiles.requirementsToOutputFiles_eq hnd]
    rfl
  have hflat : ((reqs.map (fun r => (r, (OutputFiles.pySorted files).filter
        (fun f => OutputFiles.findFirstMatching reqs f = some r)))).map
      (fun p => p.2)).flatten.Nodup := by
    rw [List.map_map]
    exact OutputFiles.flatten_filter_nodup (OutputFiles.findFirstMatching reqs) hSnd reqs hnd
  have hcontents := OutputFiles.convertAll_contents
    (reqs.map (fun r => (r, (OutputFiles.pySorted files).filter
        (fun f => OutputFiles.findFirstMatching reqs f = some r)))) fs fs
    (fun f _ => rfl) hflat
  constructor
  · intro r entries hmem f c hfc
    unfold OutputFiles.convert_to_output_file_requirements_with_content at hmem
    rw [hassign, hcontents] at hmem
    rw [List.map_map] at hmem
    obtain ⟨r', _, hre⟩ := List.mem_map.mp hmem
    simp only [Function.comp] at hre
    obtain ⟨hr1, hr2⟩ := Prod.mk.injEq .. ▸ hre
    rw [← hr2] at hfc
    obtain ⟨f', _, hfe⟩ := List.mem_map.mp hfc
    obtain ⟨hf1, hf2⟩ := Prod.mk.injEq .. ▸ hfe
    rw [← hf2, ← hr1, hf1]
  · intro path
    unfold OutputFiles.convert_to_output_file_requirements_with_content
    rw [hassign, OutputFiles.convertAll_fs, hcontents]
    rw [show ((reqs.map (fun r => (r, (OutputFiles.pySorted files).filter
          (fun f => OutputFiles.findFirstMatching reqs f = some r)))).map
        (fun p => (p.1, p.2.map (fun f => (f, OutputFiles.get_content p.1 fs f))))).any
          (fun p => !p.1.should_keep_file && (p.2.map Prod.fst).contains path)
        = (reqs.map (fun r => (r, (OutputFiles.pySorted files).filter
          (fun f => OutputFiles.findFirstMatching reqs f = some r)))).any
          (fun p => !p.1.should_keep_file && p.2.contains path) from by
      rw [OutputFiles.any_map_eq]
      apply OutputFiles.any_congr_eq
      intro p _
      simp [List.map_map, Function.comp_def]]

/-- Witness for C8 at a concrete input: a kept text requirement and a
non-kept data requirement; the text file's content is decoded from the
pre-state and the non-kept file disappears while the kept one survives. -/
theorem C8_convert_decode_and_delete_witness :
    (∀ r entries,
      (r, entries) ∈ (OutputFiles.convert_to_output_file_requirements_with_content
        [⟨"out.txt", 1, true, OutputFiles.ReqKind.textContent, some 9, 4, 10⟩,
         ⟨"tmp.bin", 0, false, OutputFiles.ReqKind.data, none, 4, 10⟩]
        ["out.txt", "tmp.bin"] [("out.txt", "hello"), ("tmp.bin", "raw")]).1 →
      ∀ f c, (f, c) ∈ entries → c = OutputFiles.get_content r
        [("out.txt", "hello"), ("tmp.bin", "raw")] f)
    ∧ OutputFiles.fsLookup (OutputFiles.convert_to_output_file_requirements_with_content
        [⟨"out.txt", 1, true, OutputFiles.ReqKind.textContent, some 9, 4, 10⟩,
         ⟨"tmp.bin", 0, false, OutputFiles.ReqKind.data, none, 4, 10⟩]
        ["out.txt", "tmp.bin"] [("out.txt", "hello"), ("tmp.bin", "raw")]).2 "tmp.bin"
      = none
    ∧ OutputFiles.fsLookup (OutputFiles.convert_to_output_file_requirements_with_content
        [⟨"out.txt", 1, true, OutputFiles.ReqKind.textContent, some 9, 4, 10⟩,
         ⟨"tmp.bin", 0, false, OutputFiles.ReqKind.data, none, 4, 10⟩]
        ["out.txt", "tmp.bin"] [("out.txt", "hello"), ("tmp.bin", "raw")]).2 "out.txt"
      = some "hello" := by
  refine ⟨(C8_convert_decode_and_delete _ _ _ (by decide) (by decide)).1, ?_, ?_⟩
  · rw [(C8_convert_decode_and_delete
      [⟨"out.txt", 1, true, OutputFiles.ReqKind.textContent, some 9, 4, 10⟩,
       ⟨"tmp.bin", 0, false, OutputFiles.ReqKind.data, none, 4, 10⟩]
      ["out.txt", "tmp.bin"] [("out.txt", "hello"), ("tmp.bin", "raw")]
      (by decide) (by decide)).2 "tmp.bin"]
    decide
  · rw [(C8_convert_decode_and_delete
      [⟨"out.txt", 1, true, OutputFiles.ReqKind.textContent, some 9, 4, 10⟩,
       ⟨"tmp.bin", 0, false, OutputFiles.ReqKind.data, none, 4, 10⟩]
      ["out.txt", "tmp.bin"] [("out.txt", "hello"), ("tmp.bin", "raw")]
      (by decide) (by decide)).2 "out.txt"]
    decide

end ClaimC8

/-! ## The checker framework (df_checker.py, `BaseChecker`) -/

namespace Checker

/-- A check method: it sees the issues accumulated so far on the checker (its
Python `self`), and yields the issues it appends together with its return
value (`should_stop`; a Python `None` return is falsy). -/
def Check : Type := List RunIssue → List RunIssue × Bool

/-- `BaseChecker._run_checks`: run the checks in order.
`num_created_issues` is the number of issues the check appended; a check
returning stop without appending (`assert False`) is modelled as `.error ()`;
the loop breaks when the accumulated issues are non-empty and either
`stop_after_first_issue` is set or the check requested stop. -/
def runChecks (stop_after_first_issue : Bool) :
    List Check → List RunIssue → Except Unit (List RunIssue)
  | [], issues => .ok issues
  | check :: rest, issues =>
    let res := check issues
    if res.2 = true ∧ res.1 = [] then .error ()
    else if issues ++ res.1 ≠ [] ∧ (stop_after_first_issue = true ∨ res.2 = true) then
      .ok (issues ++ res.1)
    else runChecks stop_after_first_issue rest (issues ++ res.1)

end Checker

section ClaimC5

/-- C5: one step of `BaseChecker._run_checks`, reached with any accumulated
issues: (a) if the check signals stop without having appended an issue, the
contract-violation assertion fires and the run fails; (b) otherwise the loop
halts early — returning the issues accumulated so far and discarding the
remaining checks — exactly when issues exist and either
`stop_after_first_issue` is set or the just-run check requested stop;
(c) in every other case the loop continues with the remaining checks. -/
theorem C5_run_checks_step (saf : Bool) (c : Checker.Check)
    (rest : List Checker.Check) (issues : List RunIssue) :
    (((c issues).2 = true ∧ (c issues).1 = []) →
      Checker.runChecks saf (c :: rest) issues = .error ())
    ∧ (¬((c issues).2 = true ∧ (c issues).1 = []) →
        (issues ++ (c issues).1 ≠ [] ∧ (saf = true ∨ (c issues).2 = true)) →
        Checker.runChecks saf (c :: rest) issues = .ok (issues ++ (c issues).1))
    ∧ (¬((c issues).2 = true ∧ (c issues).1 = []) →
        ¬(issues ++ (c issues).1 ≠ [] ∧ (saf = true ∨ (c issues).2 = true)) →
        Checker.runChecks saf (c :: rest) issues
          = Checker.runChecks saf rest (issues ++ (c issues).1)) := by
  refine ⟨?_, ?_, ?_⟩
  · intro h
    rw [Checker.runChecks, if_pos h]
  · intro h1 h2
    rw [Checker.runChecks, if_neg h1, if_pos h2]
  · intro h1 h2
    rw [Checker.runChecks, if_neg h1, if_neg h2]

/-- Witness for C5 at concrete inputs: a check that stops without appending
fails the assertion; a check that appends one issue under
`stop_after_first_issue` halts early, discarding a later check; a check that
appends nothing and does not stop lets the run continue. -/
theorem C5_run_checks_step_witness :
    Checker.runChecks true [fun _ => ([], true)] [] = .error ()
    ∧ Checker.runChecks true
        [fun _ => ([⟨"c", none, "i", "s", none, none⟩], false), fun _ => ([], true)] []
        = .ok [⟨"c", none, "i", "s", none, none⟩]
    ∧ Checker.runChecks false [fun _ => ([], false)] [] = .ok [] := by
  refine ⟨?_, ?_, ?_⟩
  · exact (C5_run_checks_step true (fun _ => ([], true)) [] []).1 (by exact ⟨rfl, rfl⟩)
  · exact (C5_run_checks_step true
      (fun _ => ([⟨"c", none, "i", "s", none, none⟩], false)) [fun _ => ([], true)] []).2.1
      (by simp) (by simp)
  · rw [(C5_run_checks_step false (fun _ => ([], false)) [] []).2.2 (by simp) (by simp)]
    rfl

end ClaimC5

/-! ## The df checkers (df_checker.py)

Dataframe cells and header labels are modelled as closed value types; Python
floats are modelled as the exact decimal numbers `num / 10^shift` (every value
the checked tables carry is a decimal literal). -/

namespace DfChecker

open PyStr

/-- A Python float given by a decimal literal: `num / 10^shift`. -/
structure PyFloat where
  num : Int
  shift : Nat
  deriving DecidableEq, Repr

/-- Numeric equality of two decimal values (Python `==` on numbers). -/
def PyFloat.eqv (a b : PyFloat) : Bool :=
  a.num * (10 : Int) ^ b.shift == b.num * (10 : Int) ^ a.shift

/-- Is the value integral (`value == int(value)`)? -/
def PyFloat.isIntegral (a : PyFloat) : Bool :=
  a.num % (10 : Int) ^ a.shift == 0

/-- `str(float)` for a decimal value: integer part, a dot, and the fractional
digits without trailing zeros (`3.14`, `3.0`, `-0.5`). -/
def PyFloat.render (x : PyFloat) : String :=
  let sign := if x.num < 0 then "-" else ""
  let a := x.num.natAbs
  let ip := a / 10 ^ x.shift
  let fp := a % 10 ^ x.shift
  let fracDigits :=
    (List.replicate (x.shift - (OutputFiles.natToDigits fp).length) '0'
      ++ OutputFiles.natToDigits fp).reverse.dropWhile (fun c => c = '0')
  if fracDigits.isEmpty then
    sign ++ String.mk (OutputFiles.natToDigits ip) ++ ".0"
  else
    sign ++ String.mk (OutputFiles.natToDigits ip) ++ "." ++ String.mk fracDigits.reverse

/-- A dataframe cell value (an element of `df.values.flatten()`). -/
inductive CellVal where
  | int (n : Int)
  | float (x : PyFloat)
  | str (s : String)
  | bool (b : Bool)
  | pval (x : PyFloat)
  | tupleV (elems : List Int)
  | nan
  | other (typeName : String)
  deriving DecidableEq, Repr

/-- The numeric reading of a cell, when it has one (`int`, `float`, `bool` and
`PValue` — a `float` subclass — compare numerically under Python `==`). -/
def CellVal.asNum : CellVal → Option PyFloat
  | .int n => some ⟨n, 0⟩
  | .float x => some x
  | .bool b => some ⟨if b then 1 else 0, 0⟩
  | .pval x => some x
  | _ => none

/-- Python `==` on cell values (`nan` compares unequal to everything). -/
def CellVal.pyEq (a b : CellVal) : Bool :=
  match a.asNum, b.asNum with
  | some x, some y => PyFloat.eqv x y
  | _, _ =>
    match a, b with
    | .str s, .str t => s == t
    | .tupleV s, .tupleV t => s == t
    | _, _ => false

/-- Modelled from the spec: `is_non_integer_numeric`
(`check_df_to_funcs/utils.py` is not among the shown sources) — "Numeric
non-integer values repeated across cells … are flagged"; "integer-valued
duplicates are not flagged".  A value qualifies when it is a plain float whose
value is not integral. -/
def is_non_integer_numeric : CellVal → Bool
  | .float x => !x.isIntegral
  | _ => false

/-- `str(value)` of a cell, as interpolated into issue texts. -/
def CellVal.render : CellVal → String
  | .int n => if n < 0 then "-" ++ String.mk (OutputFiles.natToDigits n.natAbs)
      else String.mk (OutputFiles.natToDigits n.natAbs)
  | .float x => x.render
  | .str s => s
  | .bool b => if b then "True" else "False"
  | .pval x => x.render
  | .tupleV _ => "(...)"
  | .nan => "nan"
  | .other n => "<" ++ n ++ ">"

/-- An index or column label. -/
inductive Header where
  | int (n : Int)
  | str (s : String)
  | bool (b : Bool)
  | float (x : PyFloat)
  | other (typeName : String)
  deriving DecidableEq, Repr

/-- A dataframe index: a flat `pd.Index` or a `pd.MultiIndex` given by its
levels (`get_level_values`), all of the index's length. -/
inductive DfIndex where
  | single (entries : List Header)
  | multi (levels : List (List Header))
  deriving DecidableEq, Repr

/-- The number of labels. -/
def DfIndex.len : DfIndex → Nat
  | .single es => es.length
  | .multi [] => 0
  | .multi (l :: _) => l.length

/-- A dataframe: index, columns and row-major cell values. -/
structure Df where
  index : DfIndex
  columns : DfIndex
  values : List (List CellVal)
  deriving DecidableEq, Repr

/-- `df.values.flatten()` (row-major). -/
def Df.flattenVals (df : Df) : List CellVal := df.values.flatten

/-- `df.shape[0]` (the length of the index). -/
def Df.shape0 (df : Df) : Nat := df.index.len

/-- `df.shape[1]` (the length of the columns). -/
def Df.shape1 (df : Df) : Nat := df.columns.len

/-- A `y`-style argument: a single column name or a list of them. -/
inductive StrOrStrs where
  | one (s : String)
  | many (ss : List String)
  deriving DecidableEq, Repr

/-- The keyword arguments of a `df_to_latex` / `df_to_figure` call.  An
`Option` field is `none` when the key is absent; `columns_present` records
`'columns' in kwargs`. -/
structure Kwargs where
  label : Option String
  index : Option Bool
  use_index : Option Bool
  columns_present : Bool
  note : Option String
  caption : Option String
  glossary : Option (List (String × String))
  kind : Option String
  x : Option String
  y : Option StrOrStrs
  xerr : Option StrOrStrs
  yerr : Option StrOrStrs
  x_ci : Option String
  y_ci : Option StrOrStrs
  x_p_value : Option String
  y_p_value : Option StrOrStrs
  deriving DecidableEq, Repr

/-- The input of one df checker (the `BaseDfChecker` fields).
`maxRowsAndColumns` is modelled from the spec: `get_max_rows_and_columns`
lives in the missing `research_types/hypothesis_testing/env.py` — "thresholds
are looked up, not hard-coded per rule"; the looked-up pair is carried as an
input (a `none` bound means unbounded, as `is_lower_eq` treats it). -/
structure DfCheckerInput where
  df : Df
  filename : String
  kwargs : Kwargs
  prior_dfs : List (String × Df)
  maxRowsAndColumns : Option Nat × Option Nat
  deriving DecidableEq, Repr

/-- Modelled from usage: `is_lower_eq(value, threshold)`
(`utils/numerics.py` is not among the shown sources) — within the bound, with
`None` meaning unbounded. -/
def is_lower_eq (n : Nat) : Option Nat → Bool
  | none => true
  | some m => n ≤ m

/-- The `BaseDfChecker.index` property for tables: `kwargs.get('index', True)`. -/
def tableIndexInUse (k : Kwargs) : Bool := k.index.getD true

/-- The `BaseDfChecker.index` property for figures:
`kwargs.get('use_index', True) and self.x is None`. -/
def figureIndexInUse (k : Kwargs) : Bool := (k.use_index.getD true) && k.x == none

end DfChecker

namespace DfChecker

/-- Keep-first deduplication (Python `set` collapsing, `ListBasedSet` order);
fuelled: each step strictly shortens the list, so its length always suffices. -/
def dedupKeepFirstAux : Nat → List String → List String
  | 0, l => l
  | _, [] => []
  | fuel + 1, s :: rest =>
    s :: dedupKeepFirstAux fuel (rest.filter (fun t => !(t = s : Bool)))

def dedupKeepFirst (l : List String) : List String := dedupKeepFirstAux (l.length + 1) l

/-- Python `repr` of a list of strings: `['a', 'b']`. -/
def pyReprStrList (ss : List String) : String :=
  "[" ++ String.intercalate ", " (ss.map (fun s => "\x27" ++ s ++ "\x27")) ++ "]"

/-- `^df_\w+$` (ASCII word characters; the checked filenames are ASCII). -/
def isWordChar (c : Char) : Bool :=
  ('a' ≤ c && c ≤ 'z') || ('A' ≤ c && c ≤ 'Z') || ('0' ≤ c && c ≤ '9') || c = '_'

def filenameMatchesConvention (s : String) : Bool :=
  ['d', 'f', '_'].isPrefixOf s.toList
    && !(s.toList.drop 3).isEmpty && (s.toList.drop 3).all isWordChar

/-- An issue of the syntax checkers (`SyntaxDfChecker` defaults). -/
def syntaxIssue (inp : DfCheckerInput) (issue instructions : String) : RunIssue :=
  ⟨"Checking df_to_figure/df_to_latex for call syntax", some inp.filename,
    issue, instructions, some CodeProblem.OutputFileCallingSyntax, none⟩

/-- `SyntaxDfChecker.check_filename` (table instantiation). -/
def check_filename (inp : DfCheckerInput) : List RunIssue :=
  if !filenameMatchesConvention inp.filename then
    [syntaxIssue inp
      ("The filename of the table should be in the format `df_<alphanumeric>`, but got \""
        ++ inp.filename ++ "\".") ""]
  else []

/-- `SyntaxDfChecker.check_no_label` (`kwargs.get('label', None)` truthy). -/
def check_no_label (inp : DfCheckerInput) : List RunIssue :=
  if (match inp.kwargs.label with
      | some s => !s.isEmpty
      | none => false) then
    [syntaxIssue inp
      ("The `label` argument should not be used in `df_to_figure` or `df_to_latex`; "
        ++ "It is automatically generated from the filename.")
      "Please remove the `label` argument."]
  else []

/-- `TableSyntaxDfChecker.check_that_index_is_true`. -/
def check_that_index_is_true (inp : DfCheckerInput) : List RunIssue :=
  if !tableIndexInUse inp.kwargs then
    [syntaxIssue inp "Do not call `df_to_latex` with `index=False`."
      ("Please revise the code making sure all tables are created with `index=True`, "
        ++ "and that the index is meaningful.")]
  else []

/-- `TableSyntaxDfChecker.check_column_arg_is_not_used`. -/
def check_column_arg_is_not_used (inp : DfCheckerInput) : List RunIssue :=
  if inp.kwargs.columns_present then
    [syntaxIssue inp "Do not use the `columns` argument in `df_to_latex`."
      "If you want to drop columns, do it before calling `df_to_latex`."]
  else []

/-- `set(description_labels).issubset(labels)`: every describe label occurs
among the labels (elements of a `MultiIndex` are tuples, so plain strings are
never a subset of one). -/
def dfLabelSetContains (idx : DfIndex) (s : String) : Bool :=
  match idx with
  | .single es => es.contains (.str s)
  | .multi _ => false

/-- `TableDfContentChecker.check_df_is_a_result_of_describe`. -/
def check_df_is_a_result_of_describe (inp : DfCheckerInput) : List RunIssue :=
  let description_labels := ["mean", "std", "min", "25%", "50%", "75%", "max"]
  if description_labels.all (dfLabelSetContains inp.df.columns)
      || description_labels.all (dfLabelSetContains inp.df.index) then
    [⟨"The df looks like a df.describe() table, not a scientific table", some inp.filename,
      "The df includes mean, std, as well as quantiles and min/max values.",
      ("Note that in scientific tables, it is not customary to include quantiles, "
        ++ "or min/max values, especially if the mean and std are also included.\n"
        ++ "Please revise the code so that the tables only include scientifically "
        ++ "relevant statistics."),
      some CodeProblem.OutputFileContentA, some 3⟩]
  else []

/-- The non-integer numeric cells, in flattened (row-major) order. -/
def nonIntegerNumericValues (df : Df) : List CellVal :=
  df.flattenVals.filter is_non_integer_numeric

/-- Python `list.count` under `==`. -/
def countPyEq (l : List CellVal) (v : CellVal) : Nat :=
  (l.filter (fun w => w.pyEq v)).length

/-- `len(set(values))`: the number of `==`-distinct values (fuelled: each
step strictly shortens the list). -/
def numDistinctAux : Nat → List CellVal → Nat
  | 0, _ => 0
  | _, [] => 0
  | fuel + 1, v :: rest => 1 + numDistinctAux fuel (rest.filter (fun w => !w.pyEq v))

def numDistinct (l : List CellVal) : Nat := numDistinctAux (l.length + 1) l

/-- `np.where(df.values == example)` zipped: the row-major cell coordinates
holding the example value. -/
def duplicatedPositions (df : Df) (ex : CellVal) : List (Nat × Nat) :=
  df.values.enum.flatMap
    (fun p => p.2.enum.filterMap
      (fun q => if q.2.pyEq ex then some (p.1, q.1) else none))

/-- `', '.join(f'({row}, {col})' ...)`. -/
def renderPositions (ps : List (Nat × Nat)) : String :=
  String.intercalate ", "
    (ps.map (fun p => "(" ++ toString p.1 ++ ", " ++ toString p.2 ++ ")"))

/-- `TableDfContentChecker.check_df_for_repeated_values`: when the non-integer
numeric cells contain duplicates, one issue naming the first duplicated value
and all cell coordinates where it occurs. -/
def check_df_for_repeated_values (inp : DfCheckerInput) : List RunIssue :=
  let df_values := nonIntegerNumericValues inp.df
  if df_values.length ≠ numDistinct df_values then
    match df_values.filter (fun v => countPyEq df_values v > 1) with
    | [] => []
    | ex :: _ =>
      [⟨"Overlapping values", some inp.filename,
        ("Note that the df \"" ++ inp.filename
          ++ "\" includes the same values in multiple cells.\n"
          ++ "For example, the value " ++ ex.render
          ++ " appears in the following cells:\n"
          ++ renderPositions (duplicatedPositions inp.df ex) ++ "."),
        ("This is likely a mistake and is surely confusing to the reader.\n"
          ++ "Please revise the code so that the df does not repeat the same values "
          ++ "in multiple cells."),
        some CodeProblem.OutputFileContentA, some 1⟩]
  else []

/-- `TableDfContentChecker.check_df_for_repeated_values_in_prior_dfs` (the
`prior_table is self.df` identity test is modelled as structural equality). -/
def check_df_for_repeated_values_in_prior_dfs (inp : DfCheckerInput) : List RunIssue :=
  if inp.prior_dfs.isEmpty then []
  else
    let df_values := nonIntegerNumericValues inp.df
    inp.prior_dfs.filterMap (fun p =>
      if p.2 = inp.df then none
      else
        let prior_values := nonIntegerNumericValues p.2
        if df_values.any (fun v => prior_values.any (fun w => w.pyEq v)) then
          some ⟨"Overlapping values", some inp.filename,
            ("Table \"" ++ inp.filename
              ++ "\" includes values that overlap with values in table \"" ++ p.1 ++ "\"."),
            ("In scientific tables, it is not customary to include the same values "
              ++ "in multiple tables.\nPlease revise the code so that each table "
              ++ "include its own unique data."),
            some CodeProblem.OutputFileContentA, some 1⟩
        else none)

/-- `pd.isnull` on a cell (`NaN`; `PValue` cells carry finite values here). -/
def isNullCell : CellVal → Bool
  | .nan => true
  | _ => false

/-- `DfContentChecker.check_df_for_nan_values`.  (The issue body also embeds
an `isnull`/CSV rendering via the absent `df_to_llm_readable_csv` helper; the
guard and the reported null count are transcribed, the rendering is
abbreviated.) -/
def check_df_for_nan_values (inp : DfCheckerInput) : List RunIssue :=
  let num_nulls := (inp.df.flattenVals.filter isNullCell).length
  if num_nulls > 0 then
    [⟨"Problem with df values", some inp.filename,
      "Note that the df has " ++ toString num_nulls ++ " NaN value(s).",
      "Please revise the code to avoid NaN values in the created table.",
      some CodeProblem.OutputFileContentA, none⟩]
  else []

/-- `isinstance(value, (pd.Series, pd.DataFrame))`. -/
def isSeriesOrDf : CellVal → Bool
  | .other n => n == "Series" || n == "DataFrame"
  | _ => false

/-- `isinstance(value, ALLOWED_VALUE_TYPES)` with
`ALLOWED_VALUE_TYPES = (numbers.Number, str, bool, tuple, PValue)`
(`NaN` is a float, hence a `Number`). -/
def cellTypeAllowed : CellVal → Bool
  | .other _ => false
  | _ => true

def cellTypeName : CellVal → String
  | .int _ => "int"
  | .float _ => "float"
  | .str _ => "str"
  | .bool _ => "bool"
  | .pval _ => "PValue"
  | .tupleV _ => "tuple"
  | .nan => "float"
  | .other n => n

/-- `DfContentChecker.check_df_value_types` (including the
`_check_if_df_within_df` early return). -/
def check_df_value_types (inp : DfCheckerInput) : List RunIssue :=
  if inp.df.flattenVals.any isSeriesOrDf then
    [⟨"Problem with df values", some inp.filename,
      ("Something wierd in your dataframe. Iterating over df.values.flatten() "
        ++ "returned a pandas object."),
      "", some CodeProblem.OutputFileContentA, none⟩]
  else
    let un_allowed := OutputFiles.pySorted (dedupKeepFirst
      ((inp.df.flattenVals.filter (fun v => !cellTypeAllowed v)).map cellTypeName))
    if !un_allowed.isEmpty then
      [⟨"Problem with df values", some inp.filename,
        ("Your dataframe contains values of types " ++ pyReprStrList un_allowed
          ++ " which are not allowed."),
        ("Please make sure the saved dataframes have only numeric, str, bool, "
          ++ "or tuple values."),
        some CodeProblem.OutputFileContentA, none⟩]
    else []

/-- The labels of an axis, flattened over the levels for a `MultiIndex`. -/
def flattenHeaders : DfIndex → List Header
  | .single es => es
  | .multi levels => levels.flatten

/-- `isinstance(header, (int, str, bool))` (the table checkers allow these for
both axes). -/
def headerAllowedTable : Header → Bool
  | .int _ => true
  | .str _ => true
  | .bool _ => true
  | _ => false

def headerTypeName : Header → String
  | .int _ => "int"
  | .str _ => "str"
  | .bool _ => "bool"
  | .float _ => "float"
  | .other n => n

/-- The `ListBasedSet` of offending header type names, in insertion order. -/
def unsupportedHeaderTypeNames (idx : DfIndex) : List String :=
  dedupKeepFirst
    (((flattenHeaders idx).filter (fun h => !headerAllowedTable h)).map headerTypeName)

/-- `DfContentChecker.check_df_headers_type` (table instantiation: a
multi-index is allowed on both axes, so only the type check applies; the axes
are visited in the source order `columns`, `index`). -/
def check_df_headers_type (inp : DfCheckerInput) : List RunIssue :=
  (if !(unsupportedHeaderTypeNames inp.df.columns).isEmpty then
    [⟨"Problem with df index/columns", some inp.filename,
      ("Your df has columns headers of unsupported types: "
        ++ pyReprStrList (unsupportedHeaderTypeNames inp.df.columns) ++ "."),
      "The df columns headers should be int, str or bool.",
      some CodeProblem.OutputFileContentA, none⟩]
  else [])
  ++
  (if !(unsupportedHeaderTypeNames inp.df.index).isEmpty then
    [⟨"Problem with df index/columns", some inp.filename,
      ("Your df has index headers of unsupported types: "
        ++ pyReprStrList (unsupportedHeaderTypeNames inp.df.index) ++ "."),
      "The df index headers should be int, str or bool.",
      some CodeProblem.OutputFileContentA, none⟩]
  else [])

/-- Python list equality `[ind for ind in index] == list(range(num_rows))`,
element `k` compared with the integer `k` under Python `==` (`True == 1`,
`1.0 == 1`). -/
def Header.pyEqInt : Header → Int → Bool
  | .int m, k => m == k
  | .bool b, k => (if b then (1 : Int) else 0) == k
  | .float x, k => PyFloat.eqv x ⟨k, 0⟩
  | _, _ => false

def entriesEqRangeFrom (k : Nat) : List Header → Bool
  | [] => true
  | h :: rest => h.pyEqInt k && entriesEqRangeFrom (k + 1) rest

/-- `index.dtype == int`: a pandas index of Python ints has dtype `int64`;
floats give `float64`, bools `bool`, strings and mixtures `object` (an empty
default index is an `int64` `RangeIndex`). -/
def indexDtypeIsInt (es : List Header) : Bool :=
  es.all (fun h => match h with | .int _ => true | _ => false)

/-- `DfContentChecker.check_df_index_is_a_range`. -/
def check_df_index_is_a_range (is_figure : Bool) (inp : DfCheckerInput) : List RunIssue :=
  if !(if is_figure then figureIndexInUse inp.kwargs else tableIndexInUse inp.kwargs) then []
  else
    let num_rows := inp.df.shape0
    let index_is_range :=
      match inp.df.index with
      | .multi _ => false
      | .single es => entriesEqRangeFrom 0 es && indexDtypeIsInt es
    if index_is_range then
      [⟨"Problem with df index/columns", some inp.filename,
        (if is_figure then
          ("We are using the index of the df as the x-values of the plot.\n"
            ++ "But, the index of df \"" ++ inp.filename
            ++ "\" is just a range from 0 to " ++ toString (num_rows - 1) ++ ".")
        else
          ("The index of the df is used by `df_to_latex` as the row labels.\n"
            ++ "But, the index of df \"" ++ inp.filename
            ++ "\" is just a range from 0 to " ++ toString (num_rows - 1) ++ ".")),
        (if is_figure then
          ("Please revise the code making sure the figure is built with an index "
            ++ "that represents meaningful numeric data. Or, for categorical data, "
            ++ "the index should be a list of strings.")
        else
          ("Please revise the code making sure the df is built with an index that "
            ++ "has meaningful row labels.\n"
            ++ "Labeling row with sequential numbers is not common in scientific "
            ++ "tables.")),
        some CodeProblem.OutputFileContentA, none⟩]
    else []

def renderBound : Option Nat → String
  | some m => toString m
  | none => "None"

/-- `DfContentChecker.check_df_size` (table instantiation; the looked-up
row/column bounds come with the input). -/
def check_df_size (inp : DfCheckerInput) : List RunIssue :=
  let shape := (inp.df.shape0, inp.df.shape1)
  let maxRC := inp.maxRowsAndColumns
  if is_lower_eq shape.1 maxRC.1 && is_lower_eq shape.2 maxRC.2 then []
  else
    let transpose_note :=
      if is_lower_eq shape.1 maxRC.2 && is_lower_eq shape.2 maxRC.1 then
        "You might also consider transposing the df.\n"
      else ""
    (if !is_lower_eq shape.1 maxRC.1 then
      [⟨"Too large df", some inp.filename,
        ("The table df has " ++ toString shape.1 ++ " rows, which is too many for "
          ++ "our table (max allowed: " ++ renderBound maxRC.1 ++ ")."),
        ("Please revise the code so that df of created table have a maximum of "
          ++ renderBound maxRC.1 ++ " rows and " ++ renderBound maxRC.2 ++ " columns.\n"
          ++ transpose_note),
        some CodeProblem.OutputFileContentA, none⟩]
    else [])
    ++
    (if !is_lower_eq shape.2 maxRC.2 then
      [⟨"Too large df", some inp.filename,
        ("The table df has " ++ toString shape.2 ++ " columns, which is too many for "
          ++ "our table (max allowed: " ++ renderBound maxRC.2 ++ ")."),
        ("Please revise the code so that df of created table have a maximum of "
          ++ renderBound maxRC.1 ++ " rows and " ++ renderBound maxRC.2 ++ " columns.\n"
          ++ transpose_note),
        some CodeProblem.OutputFileContentA, none⟩]
    else [])

/-- `BaseChecker._run_checks` specialised to checks that return `None` (none
of the df checks returns a stop signal, so the `assert False` branch is dead):
accumulate each check's issues and break once issues exist when
`stop_after_first_issue` is set. -/
def runChecksAcc (stop_after_first_issue : Bool) :
    List (List RunIssue) → List RunIssue → List RunIssue
  | [], issues => issues
  | new :: rest, issues =>
    if (issues ++ new) ≠ [] ∧ stop_after_first_issue = true then issues ++ new
    else runChecksAcc stop_after_first_issue rest (issues ++ new)

/-- `TableSyntaxDfChecker.run_checks` (its `CHOICE_OF_CHECKS` order;
`stop_after_first_issue` is `False` for syntax checkers). -/
def tableSyntaxIssues (inp : DfCheckerInput) : List RunIssue :=
  runChecksAcc false
    [check_filename inp, check_no_label inp,
     check_that_index_is_true inp, check_column_arg_is_not_used inp] []

/-- `TableDfContentChecker.run_checks` (its `CHOICE_OF_CHECKS` order:
the three table content checks first, then the inherited `DfContentChecker`
checks; `stop_after_first_issue` is `True` for content checkers). -/
def tableContentIssues (inp : DfCheckerInput) : List RunIssue :=
  runChecksAcc true
    [check_df_is_a_result_of_describe inp,
     check_df_for_repeated_values inp,
     check_df_for_repeated_values_in_prior_dfs inp,
     check_df_for_nan_values inp,
     check_df_value_types inp,
     check_df_headers_type inp,
     check_df_index_is_a_range false inp,
     check_df_size inp] []

/-- `check_df_to_latex_analysis`: the `ChainChecker` over
`TableSyntaxDfChecker` then `TableDfContentChecker`, stopping at the first
checker that reports any issue. -/
def check_df_to_latex_analysis (inp : DfCheckerInput) : List RunIssue :=
  let syntax_issues := tableSyntaxIssues inp
  if syntax_issues ≠ [] then syntax_issues
  else syntax_issues ++ tableContentIssues inp

end DfChecker

namespace DfChecker

/-- The `BaseDfChecker.xerr` property **as written in the source**: it returns
`self.kwargs.get('yerr', None)`; the `'xerr'` key of the call is never read. -/
def xerrProperty (k : Kwargs) : Option StrOrStrs := k.yerr

/-- `as_list=True` wrapping: `[arg] if isinstance(arg, str) else arg`. -/
def asList : Option StrOrStrs → Option (List String)
  | none => none
  | some (.one s) => some [s]
  | some (.many ss) => some ss

def strAsList : Option String → Option (List String)
  | none => none
  | some s => some [s]

/-- `col in df.columns` (a scalar key on a `MultiIndex` is looked up in its
first level). -/
def colContains (df : Df) (c : String) : Bool :=
  match df.columns with
  | .single es => es.contains (.str c)
  | .multi [] => false
  | .multi (l0 :: _) => l0.contains (.str c)

def renderHeaderLabel : Header → String
  | .str s => s
  | .int n => CellVal.render (.int n)
  | .bool b => if b then "True" else "False"
  | .float x => x.render
  | .other n => n

/-- One `arg`/`arg_name` step of the loop in
`check_that_specified_columns_exist` (the pandas `Index` repr in the
instructions is abbreviated to the list of labels). -/
def columnsArgIssues (inp : DfCheckerInput) (arg_name : String)
    (arg : Option (List String)) : List RunIssue :=
  match arg with
  | none => []
  | some cols =>
    let un_specified := cols.filter (fun c => !colContains inp.df c)
    if !un_specified.isEmpty then
      [⟨"Checking df_to_figure/df_to_latex for call syntax", some inp.filename,
        ("The columns " ++ pyReprStrList un_specified ++ " specified in the `"
          ++ arg_name ++ "` argument do not exist in the df."),
        ("Available columns are: "
          ++ pyReprStrList ((flattenHeaders inp.df.columns).map renderHeaderLabel) ++ "."),
        some CodeProblem.OutputFileCallingSyntax, none⟩]
    else []

/-- `FigureSyntaxDfChecker.check_that_specified_columns_exist`: for
`xy ∈ ['x', 'y']`, the four arguments of `get_xy_err_ci_p_value(xy,
as_list=True)` paired with the names `[xy, xy+'err', xy+'_ci',
xy+'_p_value']`; note the `'xerr'`-named argument carries `xerrProperty`, the
source's `xerr` property, which reads the `'yerr'` key. -/
def check_that_specified_columns_exist (inp : DfCheckerInput) : List RunIssue :=
  columnsArgIssues inp "x" (strAsList inp.kwargs.x)
  ++ columnsArgIssues inp "xerr" (asList (xerrProperty inp.kwargs))
  ++ columnsArgIssues inp "x_ci" (strAsList inp.kwargs.x_ci)
  ++ columnsArgIssues inp "x_p_value" (strAsList inp.kwargs.x_p_value)
  ++ columnsArgIssues inp "y" (asList inp.kwargs.y)
  ++ columnsArgIssues inp "yerr" (asList inp.kwargs.yerr)
  ++ columnsArgIssues inp "y_ci" (asList inp.kwargs.y_ci)
  ++ columnsArgIssues inp "y_p_value" (asList inp.kwargs.y_p_value)

theorem entriesEqRange_iff :
    ∀ (es : List Header) (k : Nat),
      (entriesEqRangeFrom k es && indexDtypeIsInt es) = true
        ↔ es = (List.range es.length).map (fun i => Header.int (Int.ofNat (k + i))) := by
  intro es
  induction es with
  | nil => intro k; simp [entriesEqRangeFrom, indexDtypeIsInt]
  | cons h rest ih =>
    intro k
    rw [List.length_cons, List.range_succ_eq_map, List.map_cons, List.map_map]
    have hfun : ((fun i => Header.int (Int.ofNat (k + i))) ∘ Nat.succ)
        = (fun i => Header.int (Int.ofNat ((k + 1) + i))) :=
      funext fun i => by
        simp only [Function.comp_apply]
        exact congrArg (fun n => Header.int (Int.ofNat n)) (by omega)
    rw [hfun]
    constructor
    · intro hyp
      simp only [entriesEqRangeFrom, indexDtypeIsInt, List.all_cons,
        Bool.and_eq_true] at hyp
      obtain ⟨⟨h1, h2⟩, h3, h4⟩ := hyp
      cases h with
      | int m =>
        have hm : m = Int.ofNat k := by
          simpa [Header.pyEqInt] using h1
        have hrest := (ih (k + 1)).mp (by rw [Bool.and_eq_true]; exact ⟨h2, h4⟩)
        rw [hm, ← hrest]
        simp
      | str s => simp at h3
      | bool b => simp at h3
      | float x => simp at h3
      | other n => simp at h3
    · intro hyp
      rw [List.cons.injEq] at hyp
      obtain ⟨hh, hrest⟩ := hyp
      have hr := (ih (k + 1)).mpr hrest
      rw [Bool.and_eq_true] at hr
      simp only [entriesEqRangeFrom, indexDtypeIsInt, List.all_cons, Bool.and_eq_true]
      refine ⟨⟨?_, hr.1⟩, ?_, hr.2⟩
      · rw [hh]
        simp [Header.pyEqInt]
      · rw [hh]

end DfChecker

section ClaimC9

/-- C9: with the table checker's index in use, `check_df_index_is_a_range`
flags an issue exactly when the index is a flat index whose entries are the
integers `0..n-1` (which is also exactly when its entries equal
`list(range(n))` under Python `==` **and** the dtype is integer — an all-`int`
index); in particular an index of the strings `"0".."n-1"`, or a multi-index,
is never flagged. -/
theorem C9_trivial_index_flagged_iff (inp : DfChecker.DfCheckerInput)
    (hindex : DfChecker.tableIndexInUse inp.kwargs = true) :
    DfChecker.check_df_index_is_a_range false inp ≠ []
      ↔ ∃ es, inp.df.index = DfChecker.DfIndex.single es
          ∧ es = (List.range es.length).map (fun i => DfChecker.Header.int (Int.ofNat i)) := by
  unfold DfChecker.check_df_index_is_a_range
  rw [if_neg (by rw [hindex]; simp)]
  cases hidx : inp.df.index with
  | multi levels =>
    simp only [hidx]
    constructor
    · intro h
      simp at h
    · rintro ⟨es, hes, _⟩
      cases hes
  | single es =>
    simp only [hidx]
    by_cases hr : (DfChecker.entriesEqRangeFrom 0 es && DfChecker.indexDtypeIsInt es) = true
    · rw [if_pos hr]
      constructor
      · intro _
        refine ⟨es, rfl, ?_⟩
        have := (DfChecker.entriesEqRange_iff es 0).mp hr
        simpa using this
      · intro _
        simp
    · rw [if_neg hr]
      constructor
      · intro h
        exact absurd rfl h
      · rintro ⟨es', hes', hrange⟩
        injection hes' with hes'
        subst hes'
        exfalso
        apply hr
        apply (DfChecker.entriesEqRange_iff es 0).mpr
        simpa using hrange

/-- Witness for C9 at concrete inputs: the index `[0, 1, 2]` of ints is
flagged; the index `["0", "1", "2"]` of strings is not. -/
theorem C9_trivial_index_flagged_iff_witness :
    DfChecker.check_df_index_is_a_range false
      ⟨⟨DfChecker.DfIndex.single
          [DfChecker.Header.int 0, DfChecker.Header.int 1, DfChecker.Header.int 2],
        DfChecker.DfIndex.single [DfChecker.Header.str "A"],
        [[DfChecker.CellVal.int 7], [DfChecker.CellVal.int 8], [DfChecker.CellVal.int 9]]⟩,
        "df_tbl", ⟨none, none, none, false, none, none, none, none, none, none,
          none, none, none, none, none, none⟩, [], (some 25, some 10)⟩ ≠ []
    ∧ DfChecker.check_df_index_is_a_range false
      ⟨⟨DfChecker.DfIndex.single
          [DfChecker.Header.str "0", DfChecker.Header.str "1", DfChecker.Header.str "2"],
        DfChecker.DfIndex.single [DfChecker.Header.str "A"],
        [[DfChecker.CellVal.int 7], [DfChecker.CellVal.int 8], [DfChecker.CellVal.int 9]]⟩,
        "df_tbl", ⟨none, none, none, false, none, none, none, none, none, none,
          none, none, none, none, none, none⟩, [], (some 25, some 10)⟩ = [] := by
  constructor
  · exact (C9_trivial_index_flagged_iff _ (by decide)).mpr
      ⟨[DfChecker.Header.int 0, DfChecker.Header.int 1, DfChecker.Header.int 2],
        rfl, by decide⟩
  · by_contra h
    obtain ⟨es, hes, hrange⟩ := (C9_trivial_index_flagged_iff _ (by decide)).mp h
    injection hes with hes
    rw [← hes] at hrange
    exact absurd hrange (by decide)

end ClaimC9

section ClaimC6

/-- C6 (supporting theorem for the code bug): a `df_to_figure` call whose
`xerr` argument names the non-existent column `"zzz"` produces **no** issue at
all from `check_that_specified_columns_exist` — the source's `xerr` property
reads the `'yerr'` key instead of `'xerr'` (df_checker.py line 167), so
columns referenced by the `xerr` argument are never checked, contrary to the
claim (and to the surrounding `get_xy_err_ci_p_value` naming scheme, which
pairs the property `xerr` with the reported argument name `'xerr'`). -/
theorem C6_xerr_argument_never_checked :
    DfChecker.check_that_specified_columns_exist
      ⟨⟨DfChecker.DfIndex.single [DfChecker.Header.int 0],
        DfChecker.DfIndex.single [DfChecker.Header.str "a"],
        [[DfChecker.CellVal.int 1]]⟩,
        "df_fig",
        ⟨none, none, none, false, none, none, none, some "bar", none,
          some (DfChecker.StrOrStrs.many ["a"]),
          some (DfChecker.StrOrStrs.one "zzz"),
          none, none, none, none, none⟩, [], (some 25, some 10)⟩ = []
    ∧ (⟨none, none, none, false, none, none, none, some "bar", none,
          some (DfChecker.StrOrStrs.many ["a"]),
          some (DfChecker.StrOrStrs.one "zzz"),
          none, none, none, none, none⟩ : DfChecker.Kwargs).xerr
        = some (DfChecker.StrOrStrs.one "zzz")
    ∧ DfChecker.colContains
        ⟨DfChecker.DfIndex.single [DfChecker.Header.int 0],
          DfChecker.DfIndex.single [DfChecker.Header.str "a"],
          [[DfChecker.CellVal.int 1]]⟩ "zzz" = false := by
  refine ⟨?_, rfl, by decide⟩
  rfl

end ClaimC6

section ClaimC1

/-- The C1 scenario: a 3×3 table with the trivial integer index `0..2`,
string columns, and the non-integer value `3.14` in two distinct cells
(`(0, 1)` and `(2, 2)`), requested through `df_to_latex` with plain kwargs. -/
def c1Input : DfChecker.DfCheckerInput :=
  ⟨⟨DfChecker.DfIndex.single
      [DfChecker.Header.int 0, DfChecker.Header.int 1, DfChecker.Header.int 2],
    DfChecker.DfIndex.single
      [DfChecker.Header.str "A", DfChecker.Header.str "B", DfChecker.Header.str "C"],
    [[DfChecker.CellVal.float ⟨15, 1⟩, DfChecker.CellVal.float ⟨314, 2⟩,
        DfChecker.CellVal.float ⟨25, 1⟩],
     [DfChecker.CellVal.float ⟨45, 1⟩, DfChecker.CellVal.float ⟨55, 1⟩,
        DfChecker.CellVal.float ⟨65, 1⟩],
     [DfChecker.CellVal.float ⟨75, 1⟩, DfChecker.CellVal.float ⟨85, 1⟩,
        DfChecker.CellVal.float ⟨314, 2⟩]]⟩,
    "df_tbl",
    ⟨none, none, none, false, none, none, none, none, none, none,
      none, none, none, none, none, none⟩,
    [], (some 25, some 10)⟩

/-- C1 counterexample: on the claimed scenario, `check_df_to_latex_analysis`
yields exactly **one** issue — the repeated-value issue (its text names both
cell coordinates) — and no trivial-index issue, because
`TableDfContentChecker` runs with `stop_after_first_issue = True` and its
check order puts `check_df_for_repeated_values` before
`check_df_index_is_a_range`; so the claimed "at least two distinct issues"
is false. -/
theorem C1_counterexample :
    (DfChecker.check_df_to_latex_analysis c1Input).length = 1
    ∧ (DfChecker.check_df_to_latex_analysis c1Input).all
        (fun i => i.category = "Overlapping values")
    ∧ (DfChecker.check_df_to_latex_analysis c1Input).all
        (fun i => PyStr.subL "(0, 1)".toList i.issue.toList
          && PyStr.subL "(2, 2)".toList i.issue.toList) := by
  refine ⟨?_, ?_, ?_⟩ <;> decide

/-- C1 amended: in the analysis chain for `df_to_latex`, once the syntax
checker passes and the describe-table check passes, a firing repeated-values
check short-circuits the content checker (`stop_after_first_issue`), so the
chain returns exactly the repeated-values issues — the trivial-index check is
never reached. -/
theorem C1_repeated_value_masks_trivial_index (inp : DfChecker.DfCheckerInput)
    (hsyn : DfChecker.tableSyntaxIssues inp = [])
    (hdescribe : DfChecker.check_df_is_a_result_of_describe inp = [])
    (hrepeated : DfChecker.check_df_for_repeated_values inp ≠ []) :
    DfChecker.check_df_to_latex_analysis inp
      = DfChecker.check_df_for_repeated_values inp := by
  unfold DfChecker.check_df_to_latex_analysis
  rw [hsyn]
  rw [if_neg (by intro h; exact h rfl)]
  unfold DfChecker.tableContentIssues
  rw [DfChecker.runChecksAcc, if_neg (by rw [hdescribe]; intro h; exact h.1 rfl)]
  rw [DfChecker.runChecksAcc, if_pos (by
    rw [hdescribe]
    refine ⟨?_, rfl⟩
    simpa using hrepeated)]
  rw [hdescribe]
  simp

/-- Witness for C1's amended theorem at the concrete scenario. -/
theorem C1_repeated_value_masks_trivial_index_witness :
    DfChecker.check_df_to_latex_analysis c1Input
      = DfChecker.check_df_for_repeated_values c1Input :=
  C1_repeated_value_masks_trivial_index c1Input (by decide) (by decide) (by decide)

end ClaimC1
